import Mathlib

/-!
Verification of the persistence façade (`StorageManager`) of the SAP Migration
Control Center against its design specification.

The JavaScript source keeps five named resources (profile, settings, tasks,
objects, requests) in two browser backends: `localStorage` (a string key-value
store) and IndexedDB (three object stores keyed by the `id` field).  This file
gives a shallow embedding of the storage layer:

* JSON values are modelled by the inductive type `Json`;
* `localStorage` is an association list from key strings to `Stored` values,
  where `Stored.json j` stands for a non-empty string that parses to `j` and
  `Stored.bad` for a string that `JSON.parse` rejects (or the empty string,
  which the code treats identically because it is falsy);
* the IndexedDB database, when open, is a record of three stores; each store
  is modelled as the sequence of records it contains, in insertion order;
* backend failures that the code guards with try/catch are injected through
  the `Faults` record, so that the error-handling claims quantify over them;
* functions that can throw a synchronous `TypeError` return `Except String`;
  the promise an async storage write returns either resolves or never
  settles (`Settle`): the write path that performs no `add` attaches its
  completion handlers to an IndexedDB transaction that has already
  auto-committed, so neither handler ever fires — see `saveData`.
-/

/-- JSON values (the data JavaScript passes through `JSON.stringify/parse`). -/
inductive Json where
  | null
  | bool (b : Bool)
  | num (n : Int)
  | str (s : String)
  | arr (xs : List Json)
  | obj (kvs : List (String × Json))

/-- Property access `j.k`: `none` models the JavaScript value `undefined`
(missing field, or field access on a non-object). -/
def Json.get : Json → String → Option Json
  | .obj kvs, k => kvs.lookup k
  | _, _ => none

/-- JavaScript truthiness of a value. -/
def Json.truthy : Json → Bool
  | .null => false
  | .bool b => b
  | .num n => n != 0
  | .str s => s ≠ ""
  | .arr _ => true
  | .obj _ => true

/-- Truthiness where `none` is `undefined` (falsy). -/
def truthyU : Option Json → Bool
  | none => false
  | some j => j.truthy

/-- Is the value an array (`Array.isArray`)? -/
def Json.isArr : Json → Bool
  | .arr _ => true
  | _ => false

/-- JavaScript strict equality `===` on values.  Primitives compare by value;
two objects or arrays reaching this comparison in the modelled program are
always distinct heap references (they come from separate parse/IndexedDB
reads), so the model returns `false` for them. -/
def strictEq : Json → Json → Bool
  | .null, .null => true
  | .bool a, .bool b => a == b
  | .num a, .num b => a == b
  | .str a, .str b => a == b
  | _, _ => false

/-- Strict equality lifted to possibly-`undefined` operands
(`undefined === undefined` is `true`). -/
def strictEqU : Option Json → Option Json → Bool
  | none, none => true
  | some a, some b => strictEq a b
  | _, _ => false

/-! ### String primitives used by the source

The JavaScript string methods are modelled on the character list underlying a
Lean `String`.  All are structurally recursive so that concrete runs reduce in
the kernel. -/

/-- ASCII lower-casing, the fragment of `toLowerCase` the data uses. -/
def lowerChars (cs : List Char) : List Char :=
  cs.map Char.toLower

/-- `hay.toLowerCase().includes(needle.toLowerCase())`: contiguous substring
test after lower-casing both sides. -/
def listInfix (needle : List Char) : List Char → Bool
  | [] => needle.isEmpty
  | c :: rest => needle.isPrefixOf (c :: rest) || listInfix needle rest

/-- Case-insensitive `includes` used by the search methods. -/
def strContainsCI (hay needle : String) : Bool :=
  listInfix (lowerChars needle.toList) (lowerChars hay.toList)

/-- A JSON-carrying string as the program sees it: `json j` is a non-empty
string parsing to `j`; `bad` is a string `JSON.parse` rejects, or the empty
string (both take the same code path).  Used for persisted `localStorage`
values — where `bad` means the default value is substituted on load — and
for the string input of `importData`, where `bad` means the parse throws
into the catch. -/
inductive Stored where
  | json (j : Json)
  | bad

/-- The `localStorage` backend: key/value association list. -/
abbrev LStore := List (String × Stored)

def lsGet (ls : LStore) (k : String) : Option Stored := ls.lookup k

/-- `localStorage.removeItem`. -/
def lsRemove (ls : LStore) (k : String) : LStore :=
  match ls with
  | [] => []
  | kv :: rest => if kv.1 = k then lsRemove rest k else kv :: lsRemove rest k

/-- `localStorage.setItem` (replace any existing entry for the key). -/
def lsSet (ls : LStore) (k : String) (v : Stored) : LStore :=
  (k, v) :: lsRemove ls k

/-- The IndexedDB database: the three object stores created in
`onupgradeneeded`, each modelled as its record sequence in insertion order. -/
structure IDB where
  tasks : List Json
  objects : List Json
  requests : List Json

def IDB.getStore (d : IDB) : String → Option (List Json)
  | "tasks" => some d.tasks
  | "objects" => some d.objects
  | "requests" => some d.requests
  | _ => none

def IDB.setStore (d : IDB) (name : String) (xs : List Json) : IDB :=
  if name = "tasks" then { d with tasks := xs }
  else if name = "objects" then { d with objects := xs }
  else if name = "requests" then { d with requests := xs }
  else d

/-- Full backend state: `db = none` models `this.db` still null (IndexedDB
unsupported or not yet opened), in which case only `localStorage` is used. -/
structure St where
  ls : LStore
  db : Option IDB

/-- Settlement of the promise an async storage method returns: it resolves
with a value, or never settles (`hang`).  There is no rejection constructor:
every throw or rejection the backends can produce inside the storage methods
is caught before it reaches a caller (see `saveData` and `loadData`), while
the code path of `saveData` that performs no `add` returns a promise whose
`oncomplete`/`onerror` handlers are attached to an IndexedDB transaction
that has already committed, so neither event ever fires. -/
inductive Settle (α : Type) where
  | ok (a : α)
  | hang

/-- Backend failures injected into the model; each flag makes the
corresponding primitive throw/reject exactly where the real backend can.
(The refill transaction of `saveData` needs no flag: it has already
auto-committed, empty, by the time the method would use it, so it can
neither fail nor complete observably — see `saveData`.) -/
structure Faults where
  lsSetFail : Bool
  idbReadFail : Bool
  idbClearFail : Bool

/-- The fault-free environment. -/
def noFaults : Faults := ⟨false, false, false⟩

/-- `this.keys`: resource name to `localStorage` key. -/
def keyFor (storeName : String) : Option String :=
  [("profile", "sap_migration_profile"),
   ("settings", "sap_migration_settings"),
   ("tasks", "sap_migration_tasks"),
   ("objects", "sap_migration_objects"),
   ("requests", "sap_migration_requests"),
   ("theme", "sap_migration_theme")].lookup storeName

/-- `['tasks', 'objects', 'requests'].includes(storeName)`. -/
def isCollection (s : String) : Bool :=
  s = "tasks" || s = "objects" || s = "requests"

/-- `getDefaultData`: per-resource default (`defaults[storeName] || null`). -/
def getDefaultData (storeName : String) : Json :=
  if storeName = "profile" then
    .obj [("nome", .str ""), ("empresa", .str ""), ("inicioProject", .str ""),
          ("cliente", .str ""), ("avatar", .str "🚀")]
  else if storeName = "settings" then
    .obj [("theme", .str "light"), ("notifications", .bool true),
          ("autoSave", .bool true), ("language", .str "pt-BR")]
  else if isCollection storeName then .arr []
  else .null

/-! ### IndexedDB primitives -/

/-- `getFromIndexedDB`: `getAll` on the store (only reached when `this.db`
is set); rejects on a backend read failure or a missing store. -/
def getFromIndexedDB (f : Faults) (st : St) (storeName : String) :
    Except String (List Json) :=
  if f.idbReadFail then .error "idb-read" else
  match st.db with
  | some d =>
    match d.getStore storeName with
    | some xs => .ok xs
    | none => .error "no-such-store"
  | none => .error "no-db"

/-- `clearStore`: clears one store in its own transaction; returns the new
state and whether the clear rejected. -/
def clearStore (f : Faults) (st : St) (storeName : String) :
    St × Except String Unit :=
  match st.db with
  | none => (st, .ok ())
  | some d =>
    if f.idbClearFail then (st, .error "idb-clear")
    else ({ st with db := some (d.setStore storeName []) }, .ok ())

/-- The record's `id` field is a valid IndexedDB in-line key — a number or a
string, the only key shapes this application's data uses.  Every record the
application itself creates satisfies it; the round-trip claims take it as
the data-model well-formedness hypothesis on stored collections. -/
def validIdKey (t : Json) : Bool :=
  match t.get "id" with
  | some (.str _) => true
  | some (.num _) => true
  | _ => false

/-- Is the value a non-empty array?  Exactly when it is, the IndexedDB
branch of `saveData` attempts at least one `store.add`, whose synchronous
`TransactionInactiveError` is caught, ending the method normally. -/
def isNonemptyArr : Json → Bool
  | .arr (_ :: _) => true
  | _ => false

/-! ### Generic save / load -/

/-- `saveData(storeName, data)`.  The `localStorage` write is inside its own
try/catch.  The IndexedDB branch opens a readwrite transaction and then
`await this.clearStore(storeName)` — which runs in its *own* transaction and
resolves from an event fired in a later task.  The outer transaction has no
pending requests, so it auto-commits during that await.  Consequently every
subsequent `store.add(item)` throws a synchronous `TransactionInactiveError`
that the surrounding catch swallows, leaving the store with the contents the
committed clear gave it: empty; and when no `add` runs at all — `data` an
empty array, or not an array — the method reaches
`return new Promise((resolve, reject) => { transaction.oncomplete = ...;
transaction.onerror = ... })` on the already-committed transaction, whose
events have already fired, so the returned promise never settles.
A `clearStore` rejection is caught and logged, ending the method normally
with the store untouched.  No path rejects to the caller. -/
def saveData (f : Faults) (st : St) (storeName : String) (data : Json) :
    St × Settle Unit :=
  let st1 : St :=
    if f.lsSetFail then st
    else { st with ls := lsSet st.ls ((keyFor storeName).getD "undefined") (.json data) }
  match st1.db with
  | none => (st1, .ok ())
  | some d =>
    if isCollection storeName then
      if f.idbClearFail then
        -- clearStore rejected; caught and logged, nothing further runs
        (st1, .ok ())
      else
        match data with
        | .arr (_ :: _) =>
          -- the first add throws a caught TransactionInactiveError; only
          -- the separately-committed clear survives, and the method ends
          ({ st1 with db := some (d.setStore storeName []) }, .ok ())
        | _ =>
          -- no add ran; the returned transaction promise never settles
          ({ st1 with db := some (d.setStore storeName []) }, .hang)
    else (st1, .ok ())

/-- `loadData(storeName)`: IndexedDB first for collection resources (a
non-empty result is authoritative, errors are caught), then `localStorage`
(absent or unparseable values fall back to the per-resource default).  Every
failure path is caught inside the method, so it always returns a value. -/
def loadData (f : Faults) (st : St) (storeName : String) : Json :=
  let viaIdb : Option Json :=
    match st.db with
    | some _ =>
      if isCollection storeName then
        match getFromIndexedDB f st storeName with
        | .ok xs => if xs.length > 0 then some (.arr xs) else none
        | .error _ => none
      else none
    | none => none
  match viaIdb with
  | some v => v
  | none =>
    match lsGet st.ls ((keyFor storeName).getD "undefined") with
    | some (.json j) => j
    | some .bad => getDefaultData storeName
    | none => getDefaultData storeName

/-! ### Per-resource façade methods -/

/-- `getTasks`: the loaded value, coerced to an array (`Array.isArray` check). -/
def getTasks (f : Faults) (st : St) : Json :=
  let t := loadData f st "tasks"
  if t.isArr then t else .arr []

/-- The element list of `getTasks` (always an array). -/
def getTasksL (f : Faults) (st : St) : List Json :=
  match loadData f st "tasks" with
  | .arr xs => xs
  | _ => []

def getObjects (f : Faults) (st : St) : Json :=
  let t := loadData f st "objects"
  if t.isArr then t else .arr []

def getObjectsL (f : Faults) (st : St) : List Json :=
  match loadData f st "objects" with
  | .arr xs => xs
  | _ => []

def getRequests (f : Faults) (st : St) : Json :=
  let t := loadData f st "requests"
  if t.isArr then t else .arr []

def getRequestsL (f : Faults) (st : St) : List Json :=
  match loadData f st "requests" with
  | .arr xs => xs
  | _ => []

/-- `Array.prototype.findIndex`: index of the first match, `none` for -1. -/
def findIdxO (p : Json → Bool) : List Json → Option Nat
  | [] => none
  | x :: xs => if p x then some 0 else (findIdxO p xs).map (· + 1)

/-- Upsert on a loaded collection: replace the first record whose `id` is
strictly equal to the new record's `id` (`findIndex`), else append. -/
def upsertList (record : Json) (xs : List Json) : List Json :=
  match findIdxO (fun t => strictEqU (t.get "id") (record.get "id")) xs with
  | some i => xs.set i record
  | none => xs ++ [record]

/-- `saveTask`: load, upsert, save the whole collection, return the task.
There is no try/catch here: the caller awaits `saveData`, so if the save's
promise never settles `saveTask`'s promise never settles either (the state
mutations `saveData` performed first persist). -/
def saveTask (f : Faults) (st : St) (task : Json) : St × Settle Json :=
  let newTasks := upsertList task (getTasksL f st)
  match saveData f st "tasks" (.arr newTasks) with
  | (st', .ok _) => (st', .ok task)
  | (st', .hang) => (st', .hang)

/-- `deleteTask`: filter out every record whose `id` is strictly equal to
`taskId`, then save the filtered collection. -/
def deleteTask (f : Faults) (st : St) (taskId : Json) : St × Settle Unit :=
  let filtered := (getTasksL f st).filter
    (fun t => !(strictEqU (t.get "id") (some taskId)))
  saveData f st "tasks" (.arr filtered)

/-- `getTaskById`: linear scan; `none` models `undefined` (`Array.find`). -/
def getTaskById (f : Faults) (st : St) (taskId : Json) : Option Json :=
  (getTasksL f st).find? (fun t => strictEqU (t.get "id") (some taskId))

def saveObject (f : Faults) (st : St) (object : Json) : St × Settle Json :=
  let newObjects := upsertList object (getObjectsL f st)
  match saveData f st "objects" (.arr newObjects) with
  | (st', .ok _) => (st', .ok object)
  | (st', .hang) => (st', .hang)

def deleteObject (f : Faults) (st : St) (objectId : Json) : St × Settle Unit :=
  let filtered := (getObjectsL f st).filter
    (fun t => !(strictEqU (t.get "id") (some objectId)))
  saveData f st "objects" (.arr filtered)

def getObjectById (f : Faults) (st : St) (objectId : Json) : Option Json :=
  (getObjectsL f st).find? (fun t => strictEqU (t.get "id") (some objectId))

def saveRequest (f : Faults) (st : St) (request : Json) : St × Settle Json :=
  let newRequests := upsertList request (getRequestsL f st)
  match saveData f st "requests" (.arr newRequests) with
  | (st', .ok _) => (st', .ok request)
  | (st', .hang) => (st', .hang)

/-! ### Task id generation -/

/-- `exportData`: snapshot of the five resources plus the export timestamp
(`now`, the environment's clock reading) and the fixed version.  The source
returns `JSON.stringify(data, null, 2)`; since stringify-then-parse is the
identity on JSON values, the model keeps the document itself. -/
def exportData (f : Faults) (st : St) (now : String) : Json :=
  .obj [("profile", loadData f st "profile"),
        ("settings", loadData f st "settings"),
        ("tasks", getTasks f st),
        ("objects", getObjects f st),
        ("requests", getRequests f st),
        ("exportDate", .str now),
        ("version", .str "1.0")]

/-- One `if (data.key) await this.saveData(key, data.key)` step of
`importData`: skipped when the key is absent or falsy.  The `Bool` is the
still-running flag: once an awaited save's promise has failed to settle
the run is stuck there, and no later step executes. -/
def importStep (f : Faults) (k : String) (data : Json) :
    St × Bool → St × Bool
  | (st, false) => (st, false)
  | (st, true) =>
    match data.get k with
    | some v =>
      if v.truthy then
        match saveData f st k v with
        | (st', .ok _) => (st', true)
        | (st', .hang) => (st', false)
      else (st, true)
    | none => (st, true)

/-- `importData`: a string input is parsed first — a `JSON.parse` failure is
caught by the surrounding try/catch and reported as a structured failure,
the only way that catch can fire, since the awaited saves never reject.
Then each truthy top-level resource key is saved in order and the structured
`{success, message}` object is returned — unless one of the awaited saves
never settles, in which case the promise `importData` returned never settles
either, with the state mutations made up to that point persisting. -/
def importData (f : Faults) (st : St) (input : Stored) : St × Settle Json :=
  match input with
  | .bad =>
    (st, .ok (.obj [("success", .bool false),
                    ("message", .str "Erro ao importar dados: SyntaxError")]))
  | .json data =>
    match importStep f "requests" data
        (importStep f "objects" data
          (importStep f "tasks" data
            (importStep f "settings" data
              (importStep f "profile" data (st, true))))) with
    | (st', true) =>
      (st', .ok (.obj [("success", .bool true),
                       ("message", .str "Dados importados com sucesso!")]))
    | (st', false) => (st', .hang)

/-- The six `localStorage` keys removed by `clearAllData`. -/
def allKeys : List String :=
  ["sap_migration_profile", "sap_migration_settings", "sap_migration_tasks",
   "sap_migration_objects", "sap_migration_requests", "sap_migration_theme"]

/-- `clearAllData`: removes every key-value entry, clears the three indexed
stores, and returns a structured `{success, message}` object; a `clearStore`
rejection is caught and reported as failure. -/
def clearAllData (f : Faults) (st : St) : St × Json :=
  let ls1 := allKeys.foldl lsRemove st.ls
  let st1 : St := { st with ls := ls1 }
  let afterDb : St × Option String :=
    match st1.db with
    | none => (st1, none)
    | some _ =>
      if f.idbClearFail then (st1, some "idb-clear")
      else ({ st1 with db := some { tasks := [], objects := [], requests := [] } },
            none)
  match afterDb with
  | (st2, none) =>
    (st2, .obj [("success", .bool true),
                ("message", .str "Todos os dados foram limpos!")])
  | (st2, some e) =>
    (st2, .obj [("success", .bool false),
                ("message", .str ("Erro ao limpar dados: " ++ e))])

/-! ### Search -/

/-- `!filters.f || record.field === filters.f`. -/
def matchesFilter (t : Json) (field : String) (fv : Option Json) : Bool :=
  !truthyU fv || strictEqU (t.get field) fv

/-- `Array.prototype.filter` with a predicate that may throw: elements are
tested left to right and the first exception propagates. -/
def filterE (p : Json → Except String Bool) : List Json → Except String (List Json)
  | [] => .ok []
  | x :: xs =>
    match p x with
    | .error e => .error e
    | .ok b =>
      match filterE p xs with
      | .error e => .error e
      | .ok rest => .ok (if b then x :: rest else rest)

/-- Text-query conjunct of `searchObjects` (`nome` / `id` / `notas`). -/
def matchesQueryObject (q t : Json) : Except String Bool :=
  if !q.truthy then .ok true
  else
    match t.get "nome" with
    | some (.str nome) =>
      match q with
      | .str qs =>
        if strContainsCI nome qs then .ok true
        else
          match t.get "id" with
          | some (.str idv) =>
            if strContainsCI idv qs then .ok true
            else
              match t.get "notas" with
              | some (.str d) => .ok (d ≠ "" && strContainsCI d qs)
              | some v => if v.truthy then .error "TypeError" else .ok false
              | none => .ok false
          | _ => .error "TypeError"
      | _ => .error "TypeError"
    | _ => .error "TypeError"

def objectPred (q filters t : Json) : Except String Bool :=
  match matchesQueryObject q t with
  | .error e => .error e
  | .ok mq =>
    .ok (mq && matchesFilter t "tipo" (filters.get "type")
            && matchesFilter t "status" (filters.get "status"))

def searchObjects (f : Faults) (st : St) (q filters : Json) :
    Except String (List Json) :=
  filterE (objectPred q filters) (getObjectsL f st)

/-! ### Well-formedness predicates used as theorem hypotheses -/

/-- The record has a string `id` field (the shape every task/object the
application itself creates has). -/
def hasStrId (t : Json) : Bool :=
  match t.get "id" with
  | some (.str _) => true
  | _ => false

/-- The string `id` of a record, when it has one. -/
def idOf (t : Json) : Option String :=
  match t.get "id" with
  | some (.str s) => some s
  | _ => none

/-- Number of records in `xs` whose `id` is strictly equal to the string `i`. -/
def countId (xs : List Json) (i : String) : Nat :=
  (xs.filter (fun t => strictEqU (t.get "id") (some (.str i)))).length


/-! ### Basic lemmas: localStorage and the store map -/

theorem lsGet_lsRemove_self (ls : LStore) (k : String) :
    lsGet (lsRemove ls k) k = none := by
  induction ls with
  | nil => rfl
  | cons kv rest ih =>
    by_cases hk : kv.1 = k
    · simpa [lsRemove, hk] using ih
    · have hne : (k == kv.1) = false := by
        simp; exact fun e => hk e.symm
      simpa [lsRemove, hk, lsGet, List.lookup, hne] using ih

theorem lsGet_lsRemove_ne (ls : LStore) (k k' : String) (h : k' ≠ k) :
    lsGet (lsRemove ls k) k' = lsGet ls k' := by
  induction ls with
  | nil => rfl
  | cons kv rest ih =>
    rcases kv with ⟨a, b⟩
    by_cases hk : a = k
    · subst hk
      have hne : (k' == a) = false := by simpa using h
      simp only [lsRemove, if_pos rfl, lsGet, List.lookup, hne] at ih ⊢
      exact ih
    · simp only [lsRemove, if_neg hk, lsGet, List.lookup] at ih ⊢
      by_cases he : k' = a
      · simp [he]
      · have hne2 : (k' == a) = false := by simpa using he
        simp [hne2, ih]

theorem lsGet_lsSet_self (ls : LStore) (k : String) (v : Stored) :
    lsGet (lsSet ls k v) k = some v := by
  simp [lsGet, lsSet, List.lookup]

theorem lsGet_lsSet_ne (ls : LStore) (k k' : String) (v : Stored) (h : k' ≠ k) :
    lsGet (lsSet ls k v) k' = lsGet ls k' := by
  have hne : (k' == k) = false := by simpa using h
  have := lsGet_lsRemove_ne ls k k' h
  simpa [lsGet, lsSet, List.lookup, hne] using this

theorem isCollection_cases {n : String} (hn : isCollection n = true) :
    n = "tasks" ∨ n = "objects" ∨ n = "requests" := by
  by_cases h1 : n = "tasks"
  · exact .inl h1
  by_cases h2 : n = "objects"
  · exact .inr (.inl h2)
  by_cases h3 : n = "requests"
  · exact .inr (.inr h3)
  exact absurd hn (by simp [isCollection, h1, h2, h3])

theorem getStore_setStore_self (d : IDB) (n : String) (xs : List Json)
    (hn : isCollection n = true) :
    (d.setStore n xs).getStore n = some xs := by
  rcases isCollection_cases hn with rfl | rfl | rfl <;> rfl

theorem getStore_setStore_ne (d : IDB) (n n' : String) (xs : List Json)
    (hn : isCollection n = true) (h : n' ≠ n) :
    (d.setStore n xs).getStore n' = d.getStore n' := by
  rcases isCollection_cases hn with rfl | rfl | rfl <;>
    (unfold IDB.getStore IDB.setStore; split <;> simp_all)

/-! ### findIndex / upsert lemmas -/

theorem findIdxO_eq_none {p : Json → Bool} {xs : List Json}
    (h : findIdxO p xs = none) : ∀ x ∈ xs, p x = false := by
  induction xs with
  | nil => intro x hx; cases hx
  | cons y ys ih =>
    intro x hx
    by_cases hy : p y
    · simp [findIdxO, hy] at h
    · rcases List.mem_cons.mp hx with rfl | hx
      · simpa using hy
      · refine ih ?_ x hx
        simp only [findIdxO, hy, if_neg] at h
        simp only [Bool.false_eq_true, if_false] at h
        exact Option.map_eq_none'.mp h

theorem find?_set_of_findIdxO {p : Json → Bool} {xs : List Json} {i : Nat}
    (a : Json) (ha : p a = true) (h : findIdxO p xs = some i) :
    (xs.set i a).find? p = some a := by
  induction xs generalizing i with
  | nil => simp [findIdxO] at h
  | cons y ys ih =>
    by_cases hy : p y
    · simp only [findIdxO, hy, if_pos] at h
      cases h
      simp [List.find?, ha]
    · simp only [findIdxO, hy, Bool.false_eq_true, if_false] at h
      rcases Option.map_eq_some'.mp h with ⟨j, hj, rfl⟩
      simp only [List.set]
      rw [List.find?_cons_of_neg _ (by simpa using hy)]
      exact ih hj

theorem find?_append_singleton {p : Json → Bool} {xs : List Json}
    (a : Json) (ha : p a = true) (h : findIdxO p xs = none) :
    (xs ++ [a]).find? p = some a := by
  induction xs with
  | nil => simp [List.find?, ha]
  | cons y ys ih =>
    have hy : p y = false := findIdxO_eq_none h y (by simp)
    have hys : findIdxO p ys = none := by
      simp only [findIdxO, hy, Bool.false_eq_true, if_false] at h
      exact Option.map_eq_none'.mp h
    simp only [List.cons_append]
    rw [List.find?_cons_of_neg _ (by simp [hy])]
    exact ih hys

theorem find?_upsertList (T : Json) (xs : List Json) (tid : String)
    (hT : T.get "id" = some (.str tid)) :
    (upsertList T xs).find?
      (fun t => strictEqU (t.get "id") (some (.str tid))) = some T := by
  have ha : strictEqU (T.get "id") (some (.str tid)) = true := by
    rw [hT]; simp [strictEqU, strictEq]
  unfold upsertList
  rw [hT]
  cases h : findIdxO (fun t => strictEqU (t.get "id") (some (.str tid))) xs with
  | some i => exact find?_set_of_findIdxO T ha h
  | none => exact find?_append_singleton T ha h

/-! ### saveData / loadData on explicit states -/

theorem saveData_db_none (ls : LStore) (n : String) (v : Json) :
    saveData noFaults ⟨ls, none⟩ n v =
      (⟨lsSet ls ((keyFor n).getD "undefined") (.json v), none⟩, .ok ()) := rfl

theorem saveData_noncol (ls : LStore) (db : Option IDB) (n : String) (v : Json)
    (hn : isCollection n = false) :
    saveData noFaults ⟨ls, db⟩ n v =
      (⟨lsSet ls ((keyFor n).getD "undefined") (.json v), db⟩, .ok ()) := by
  cases db with
  | none => rfl
  | some d => simp [saveData, noFaults, hn]

/-- Saving a non-empty collection array with IndexedDB open: the first
refill `add` throws a caught `TransactionInactiveError`, so the store keeps
only the committed clear (it is empty) and the promise resolves; the
`localStorage` copy, written first, holds the saved records. -/
theorem saveData_col_ne_nil (ls : LStore) (d : IDB) (n : String) (xs : List Json)
    (hn : isCollection n = true) (hxs : xs ≠ []) :
    saveData noFaults ⟨ls, some d⟩ n (.arr xs) =
      (⟨lsSet ls ((keyFor n).getD "undefined") (.json (.arr xs)),
        some (d.setStore n [])⟩, .ok ()) := by
  cases xs with
  | nil => exact absurd rfl hxs
  | cons y ys => simp [saveData, noFaults, hn]

/-- Saving an empty array or a non-array value of a collection resource with
IndexedDB open: no `add` runs, so the method returns a promise tied to the
already-committed refill transaction — it never settles. -/
theorem saveData_col_hang (ls : LStore) (d : IDB) (n : String) (v : Json)
    (hn : isCollection n = true) (hv : isNonemptyArr v = false) :
    saveData noFaults ⟨ls, some d⟩ n v =
      (⟨lsSet ls ((keyFor n).getD "undefined") (.json v),
        some (d.setStore n [])⟩, .hang) := by
  cases v with
  | arr xs =>
    cases xs with
    | nil => simp [saveData, noFaults, hn]
    | cons y ys => simp [isNonemptyArr] at hv
  | null => simp [saveData, noFaults, hn]
  | bool b => simp [saveData, noFaults, hn]
  | num m => simp [saveData, noFaults, hn]
  | str s => simp [saveData, noFaults, hn]
  | obj kvs => simp [saveData, noFaults, hn]

theorem loadData_db_none (ls : LStore) (n : String) :
    loadData noFaults ⟨ls, none⟩ n =
      (match lsGet ls ((keyFor n).getD "undefined") with
       | some (.json j) => j
       | some .bad => getDefaultData n
       | none => getDefaultData n) := rfl

theorem loadData_db_some_col (ls : LStore) (d : IDB) (n : String)
    (ys : List Json) (hn : isCollection n = true) (hst : d.getStore n = some ys) :
    loadData noFaults ⟨ls, some d⟩ n =
      (if 0 < ys.length then .arr ys
       else match lsGet ls ((keyFor n).getD "undefined") with
            | some (.json j) => j
            | some .bad => getDefaultData n
            | none => getDefaultData n) := by
  by_cases hlen : 0 < ys.length
  · rw [if_pos hlen]
    simp only [loadData, getFromIndexedDB, noFaults, Bool.false_eq_true, if_false,
      hn, if_true, hst, gt_iff_lt, hlen, if_pos]
  · rw [if_neg hlen]
    simp only [loadData, getFromIndexedDB, noFaults, Bool.false_eq_true, if_false,
      hn, if_true, hst, gt_iff_lt, hlen, if_neg]

theorem loadData_db_some_noncol (ls : LStore) (d : IDB) (n : String)
    (hn : isCollection n = false) :
    loadData noFaults ⟨ls, some d⟩ n =
      (match lsGet ls ((keyFor n).getD "undefined") with
       | some (.json j) => j
       | some .bad => getDefaultData n
       | none => getDefaultData n) := by
  simp [loadData, hn]

/-- After a fault-free whole-collection save, loading the same collection
resource yields exactly the saved records: with IndexedDB open the store is
left empty either way (the refill `add`s all throw into the catch), so the
read falls back to the `localStorage` copy written first. -/
theorem load_saveData_col (st : St) (n : String) (xs : List Json)
    (hn : isCollection n = true) :
    loadData noFaults (saveData noFaults st n (.arr xs)).1 n = .arr xs := by
  rcases st with ⟨ls, db⟩
  rcases db with _ | d
  · rw [saveData_db_none, loadData_db_none, lsGet_lsSet_self]
  · have hst : (saveData noFaults ⟨ls, some d⟩ n (.arr xs)).1 =
        ⟨lsSet ls ((keyFor n).getD "undefined") (.json (.arr xs)),
         some (d.setStore n [])⟩ := by
      cases xs with
      | nil => rw [saveData_col_hang ls d n (.arr []) hn rfl]
      | cons y ys => rw [saveData_col_ne_nil ls d n (y :: ys) hn (List.cons_ne_nil y ys)]
    rw [hst, loadData_db_some_col _ _ _ [] hn (getStore_setStore_self d n [] hn),
      if_neg (by simp), lsGet_lsSet_self]

theorem getTasksL_of_loadData {f : Faults} {st : St} {xs : List Json}
    (h : loadData f st "tasks" = .arr xs) : getTasksL f st = xs := by
  simp [getTasksL, h]

theorem getObjectsL_of_loadData {f : Faults} {st : St} {xs : List Json}
    (h : loadData f st "objects" = .arr xs) : getObjectsL f st = xs := by
  simp [getObjectsL, h]

theorem getRequestsL_of_loadData {f : Faults} {st : St} {xs : List Json}
    (h : loadData f st "requests" = .arr xs) : getRequestsL f st = xs := by
  simp [getRequestsL, h]

/-- The saved-collection list produced by `saveTask`. -/
theorem saveTask_state (f : Faults) (st : St) (task : Json) :
    (saveTask f st task).1 =
      (saveData f st "tasks" (.arr (upsertList task (getTasksL f st)))).1 := by
  unfold saveTask
  cases h : saveData f st "tasks" (.arr (upsertList task (getTasksL f st))) with
  | mk st' r => cases r <;> simp [h]

theorem saveObject_state (f : Faults) (st : St) (object : Json) :
    (saveObject f st object).1 =
      (saveData f st "objects" (.arr (upsertList object (getObjectsL f st)))).1 := by
  unfold saveObject
  cases h : saveData f st "objects" (.arr (upsertList object (getObjectsL f st))) with
  | mk st' r => cases r <;> simp [h]

/-! ## Claim C1 -/

/-- C1: for every valid task record `T` (an object carrying a string `id`)
and every prior stored tasks collection whose records have IndexedDB-valid
ids, `saveTask T` followed by `getTaskById T.id` returns a record deep-equal
to `T` (propositional equality of the modelled JSON record). -/
theorem claim_C1_saveTask_then_getTaskById (st : St) (T : Json) (tid : String)
    (hT : T.get "id" = some (.str tid))
    (_hval : (getTasksL noFaults st).all validIdKey = true) :
    getTaskById noFaults (saveTask noFaults st T).1 (.str tid) = some T := by
  have hload := load_saveData_col st "tasks" (upsertList T (getTasksL noFaults st))
    (by decide)
  unfold getTaskById
  rw [saveTask_state, getTasksL_of_loadData hload]
  exact find?_upsertList T _ tid hT

theorem claim_C1_witness :
    (Json.obj [("id", Json.str "TSK001"), ("titulo", Json.str "Analise")]).get "id"
        = some (Json.str "TSK001")
    ∧ (getTasksL noFaults ⟨[], none⟩).all validIdKey = true
    ∧ getTaskById noFaults
        (saveTask noFaults ⟨[], none⟩
          (Json.obj [("id", Json.str "TSK001"), ("titulo", Json.str "Analise")])).1
        (Json.str "TSK001")
      = some (Json.obj [("id", Json.str "TSK001"), ("titulo", Json.str "Analise")]) :=
  ⟨rfl, rfl,
    claim_C1_saveTask_then_getTaskById ⟨[], none⟩ _ "TSK001" rfl rfl⟩

/-! ## Claim C3 -/

theorem length_filter_not_add (q : Json → Bool) (xs : List Json) :
    (xs.filter (fun t => ! q t)).length + (xs.filter q).length = xs.length := by
  induction xs with
  | nil => rfl
  | cons y ys ih =>
    cases hy : q y <;> simp [List.filter, hy] <;> omega

/-- C3: under the data-model invariant that the stored tasks carry valid,
non-duplicated ids, `deleteTask id` (a) leaves exactly the records whose `id`
is not strictly equal to the deleted id, (b) shrinks the collection by
exactly one when the id occurs exactly once, and (c) is a no-op on the
collection when no record has the id. -/
theorem claim_C3_deleteTask (st : St) (tid : String)
    (_hval : (getTasksL noFaults st).all validIdKey = true) :
    getTasksL noFaults (deleteTask noFaults st (.str tid)).1 =
        (getTasksL noFaults st).filter
          (fun t => !(strictEqU (t.get "id") (some (.str tid))))
    ∧ (countId (getTasksL noFaults st) tid = 1 →
        (getTasksL noFaults (deleteTask noFaults st (.str tid)).1).length + 1 =
          (getTasksL noFaults st).length)
    ∧ (countId (getTasksL noFaults st) tid = 0 →
        getTasksL noFaults (deleteTask noFaults st (.str tid)).1 =
          getTasksL noFaults st) := by
  have hload := load_saveData_col st "tasks"
    ((getTasksL noFaults st).filter
      (fun t => !(strictEqU (t.get "id") (some (.str tid)))))
    (by decide)
  have hmain : getTasksL noFaults (deleteTask noFaults st (.str tid)).1 =
      (getTasksL noFaults st).filter
        (fun t => !(strictEqU (t.get "id") (some (.str tid)))) := by
    unfold deleteTask
    exact getTasksL_of_loadData hload
  refine ⟨hmain, ?_, ?_⟩
  · intro hcount
    rw [hmain]
    have := length_filter_not_add
      (fun t => strictEqU (t.get "id") (some (.str tid))) (getTasksL noFaults st)
    unfold countId at hcount
    omega
  · intro hcount
    rw [hmain]
    unfold countId at hcount
    have hnil := List.length_eq_zero.mp hcount
    rw [List.filter_eq_self]
    intro a ha
    by_contra hpa
    have : a ∈ (getTasksL noFaults st).filter
        (fun t => strictEqU (t.get "id") (some (.str tid))) := by
      rw [List.mem_filter]
      exact ⟨ha, by simpa using hpa⟩
    rw [hnil] at this
    cases this

theorem claim_C3_witness :
    countId (getTasksL noFaults ⟨[("sap_migration_tasks",
        Stored.json (Json.arr [Json.obj [("id", Json.str "TSK001")],
          Json.obj [("id", Json.str "TSK002")]]))], none⟩) "TSK001" = 1
    ∧ (getTasksL noFaults ⟨[("sap_migration_tasks",
        Stored.json (Json.arr [Json.obj [("id", Json.str "TSK001")],
          Json.obj [("id", Json.str "TSK002")]]))], none⟩).all validIdKey = true
    ∧ (getTasksL noFaults (deleteTask noFaults ⟨[("sap_migration_tasks",
          Stored.json (Json.arr [Json.obj [("id", Json.str "TSK001")],
            Json.obj [("id", Json.str "TSK002")]]))], none⟩ (.str "TSK001")).1 =
        (getTasksL noFaults ⟨[("sap_migration_tasks",
          Stored.json (Json.arr [Json.obj [("id", Json.str "TSK001")],
            Json.obj [("id", Json.str "TSK002")]]))], none⟩).filter
          (fun t => !(strictEqU (t.get "id") (some (.str "TSK001"))))
      ∧ (countId (getTasksL noFaults ⟨[("sap_migration_tasks",
            Stored.json (Json.arr [Json.obj [("id", Json.str "TSK001")],
              Json.obj [("id", Json.str "TSK002")]]))], none⟩) "TSK001" = 1 →
          (getTasksL noFaults (deleteTask noFaults ⟨[("sap_migration_tasks",
              Stored.json (Json.arr [Json.obj [("id", Json.str "TSK001")],
                Json.obj [("id", Json.str "TSK002")]]))], none⟩ (.str "TSK001")).1).length + 1 =
            (getTasksL noFaults ⟨[("sap_migration_tasks",
              Stored.json (Json.arr [Json.obj [("id", Json.str "TSK001")],
                Json.obj [("id", Json.str "TSK002")]]))], none⟩).length)
      ∧ (countId (getTasksL noFaults ⟨[("sap_migration_tasks",
            Stored.json (Json.arr [Json.obj [("id", Json.str "TSK001")],
              Json.obj [("id", Json.str "TSK002")]]))], none⟩) "TSK001" = 0 →
          getTasksL noFaults (deleteTask noFaults ⟨[("sap_migration_tasks",
              Stored.json (Json.arr [Json.obj [("id", Json.str "TSK001")],
                Json.obj [("id", Json.str "TSK002")]]))], none⟩ (.str "TSK001")).1 =
            getTasksL noFaults ⟨[("sap_migration_tasks",
              Stored.json (Json.arr [Json.obj [("id", Json.str "TSK001")],
                Json.obj [("id", Json.str "TSK002")]]))], none⟩)) :=
  ⟨rfl, rfl, claim_C3_deleteTask ⟨[("sap_migration_tasks",
    Stored.json (Json.arr [Json.obj [("id", Json.str "TSK001")],
      Json.obj [("id", Json.str "TSK002")]]))], none⟩ "TSK001" rfl⟩

/-! ## Claim C6 -/

theorem filter_length_set {p : Json → Bool} {xs : List Json} {i : Nat} {a : Json}
    (ha : p a = true) (h : findIdxO p xs = some i) :
    ((xs.set i a).filter p).length = (xs.filter p).length := by
  induction xs generalizing i with
  | nil => simp [findIdxO] at h
  | cons y ys ih =>
    by_cases hy : p y
    · simp only [findIdxO, hy, if_pos] at h
      cases h
      simp [List.filter, hy, ha]
    · simp only [findIdxO, hy, Bool.false_eq_true, if_false] at h
      rcases Option.map_eq_some'.mp h with ⟨j, hj, rfl⟩
      simp only [List.set]
      simp [List.filter, (by simpa using hy : p y = false), ih hj]

theorem filter_nil_of_all_false {p : Json → Bool} {xs : List Json}
    (h : ∀ x ∈ xs, p x = false) : xs.filter p = [] := by
  induction xs with
  | nil => rfl
  | cons y ys ih =>
    simp [List.filter, h y (by simp),
      ih (fun x hx => h x (List.mem_cons_of_mem y hx))]

/-- C6: upserting an object whose id occurs exactly once in the stored
collection replaces that record in place — afterwards exactly one record
carries the id, and get-by-id returns the newly-saved record (so saving
`{id:"ZEXIT01", status:"convertido"}` over the existing `ZEXIT01` leaves a
single `ZEXIT01` object, now with status "convertido"). -/
theorem claim_C6_saveObject_replaces (st : St) (O : Json) (oid : String)
    (hO : O.get "id" = some (.str oid))
    (_hval : (getObjectsL noFaults st).all validIdKey = true)
    (hone : countId (getObjectsL noFaults st) oid = 1) :
    countId (getObjectsL noFaults (saveObject noFaults st O).1) oid = 1
    ∧ getObjectById noFaults (saveObject noFaults st O).1 (.str oid) = some O := by
  have hload := load_saveData_col st "objects" (upsertList O (getObjectsL noFaults st))
    (by decide)
  have hnew : getObjectsL noFaults (saveObject noFaults st O).1 =
      upsertList O (getObjectsL noFaults st) := by
    rw [saveObject_state]
    exact getObjectsL_of_loadData hload
  have hp : strictEqU (O.get "id") (some (.str oid)) = true := by
    rw [hO]; simp [strictEqU, strictEq]
  constructor
  · rw [hnew]
    unfold upsertList
    rw [hO]
    cases h : findIdxO (fun t => strictEqU (t.get "id") (some (.str oid)))
        (getObjectsL noFaults st) with
    | some i =>
      unfold countId
      rw [filter_length_set hp h]
      exact hone
    | none =>
      exfalso
      have hz : countId (getObjectsL noFaults st) oid = 0 := by
        unfold countId
        rw [filter_nil_of_all_false (findIdxO_eq_none h)]
        rfl
      omega
  · unfold getObjectById
    rw [hnew]
    exact find?_upsertList O _ oid hO

theorem claim_C6_witness :
    (Json.obj [("id", Json.str "ZEXIT01"), ("status", Json.str "convertido")]).get "id"
        = some (Json.str "ZEXIT01")
    ∧ (getObjectsL noFaults (saveObject noFaults ⟨[], none⟩
        (Json.obj [("id", Json.str "ZEXIT01"), ("tipo", Json.str "exit"),
          ("status", Json.str "nao-analisado"),
          ("impacto", Json.str "critico")])).1).all validIdKey = true
    ∧ countId (getObjectsL noFaults (saveObject noFaults ⟨[], none⟩
        (Json.obj [("id", Json.str "ZEXIT01"), ("tipo", Json.str "exit"),
          ("status", Json.str "nao-analisado"),
          ("impacto", Json.str "critico")])).1) "ZEXIT01" = 1
    ∧ countId (getObjectsL noFaults (saveObject noFaults
        (saveObject noFaults ⟨[], none⟩
          (Json.obj [("id", Json.str "ZEXIT01"), ("tipo", Json.str "exit"),
            ("status", Json.str "nao-analisado"),
            ("impacto", Json.str "critico")])).1
        (Json.obj [("id", Json.str "ZEXIT01"),
          ("status", Json.str "convertido")])).1) "ZEXIT01" = 1
    ∧ getObjectById noFaults (saveObject noFaults
        (saveObject noFaults ⟨[], none⟩
          (Json.obj [("id", Json.str "ZEXIT01"), ("tipo", Json.str "exit"),
            ("status", Json.str "nao-analisado"),
            ("impacto", Json.str "critico")])).1
        (Json.obj [("id", Json.str "ZEXIT01"),
          ("status", Json.str "convertido")])).1 (.str "ZEXIT01")
      = some (Json.obj [("id", Json.str "ZEXIT01"),
          ("status", Json.str "convertido")]) := by
  have h := claim_C6_saveObject_replaces
    (saveObject noFaults ⟨[], none⟩
      (Json.obj [("id", Json.str "ZEXIT01"), ("tipo", Json.str "exit"),
        ("status", Json.str "nao-analisado"),
        ("impacto", Json.str "critico")])).1
    (Json.obj [("id", Json.str "ZEXIT01"), ("status", Json.str "convertido")])
    "ZEXIT01" rfl rfl rfl
  exact ⟨rfl, rfl, rfl, h.1, h.2⟩

/-! ## Claim C10 -/

/-- C10: whatever was persisted — including well-formed JSON of the wrong
shape — the public collection getters always return an array, and substitute
the empty array exactly when the loaded value is not an array. -/
theorem claim_C10_getters_always_arrays (f : Faults) (st : St) :
    (getTasks f st).isArr = true
    ∧ (getObjects f st).isArr = true
    ∧ (getRequests f st).isArr = true
    ∧ ((loadData f st "tasks").isArr = false → getTasks f st = .arr [])
    ∧ ((loadData f st "objects").isArr = false → getObjects f st = .arr [])
    ∧ ((loadData f st "requests").isArr = false → getRequests f st = .arr []) := by
  refine ⟨?_, ?_, ?_, ?_, ?_, ?_⟩
  · cases hv : loadData f st "tasks" <;> simp [getTasks, hv, Json.isArr]
  · cases hv : loadData f st "objects" <;> simp [getObjects, hv, Json.isArr]
  · cases hv : loadData f st "requests" <;> simp [getRequests, hv, Json.isArr]
  · intro h; simp [getTasks, h]
  · intro h; simp [getObjects, h]
  · intro h; simp [getRequests, h]


theorem claim_C10_witness :
    (loadData noFaults ⟨[("sap_migration_tasks", Stored.json (Json.obj [("a", Json.num 1)])),
        ("sap_migration_objects", Stored.json (Json.str "oops")),
        ("sap_migration_requests", Stored.json (Json.num 5))], none⟩ "tasks").isArr = false
    ∧ getTasks noFaults ⟨[("sap_migration_tasks", Stored.json (Json.obj [("a", Json.num 1)])),
        ("sap_migration_objects", Stored.json (Json.str "oops")),
        ("sap_migration_requests", Stored.json (Json.num 5))], none⟩ = .arr []
    ∧ getObjects noFaults ⟨[("sap_migration_tasks", Stored.json (Json.obj [("a", Json.num 1)])),
        ("sap_migration_objects", Stored.json (Json.str "oops")),
        ("sap_migration_requests", Stored.json (Json.num 5))], none⟩ = .arr []
    ∧ getRequests noFaults ⟨[("sap_migration_tasks", Stored.json (Json.obj [("a", Json.num 1)])),
        ("sap_migration_objects", Stored.json (Json.str "oops")),
        ("sap_migration_requests", Stored.json (Json.num 5))], none⟩ = .arr [] :=
  ⟨rfl,
    (claim_C10_getters_always_arrays noFaults _).2.2.2.1 rfl,
    (claim_C10_getters_always_arrays noFaults _).2.2.2.2.1 rfl,
    (claim_C10_getters_always_arrays noFaults _).2.2.2.2.2 rfl⟩

/-! ## Claim C9 -/

/-- C9: for a collection resource, a non-empty IndexedDB read is
authoritative; otherwise the key-value entry is used — a present entry that
parses is returned as the loaded value, both when IndexedDB is unavailable
and when the indexed store is empty — and an absent or malformed
(unparseable) entry yields the resource-specific default: the empty list for
the three collections, the fixed-shape default objects for profile and
settings. -/
theorem claim_C9_loadData_fallback (f : Faults) (st : St) (n : String)
    (hn : isCollection n = true) :
    (∀ d ys, st.db = some d → f.idbReadFail = false → d.getStore n = some ys →
       ys ≠ [] → loadData f st n = .arr ys)
    ∧ (st.db = none → lsGet st.ls ((keyFor n).getD "undefined") = none →
        loadData f st n = getDefaultData n)
    ∧ (st.db = none → lsGet st.ls ((keyFor n).getD "undefined") = some .bad →
        loadData f st n = getDefaultData n)
    ∧ (∀ d, st.db = some d → d.getStore n = some [] →
        lsGet st.ls ((keyFor n).getD "undefined") = some .bad →
        loadData f st n = getDefaultData n)
    ∧ (∀ j, st.db = none →
        lsGet st.ls ((keyFor n).getD "undefined") = some (.json j) →
        loadData f st n = j)
    ∧ (∀ d j, st.db = some d → d.getStore n = some [] →
        lsGet st.ls ((keyFor n).getD "undefined") = some (.json j) →
        loadData f st n = j)
    ∧ getDefaultData "tasks" = .arr []
    ∧ getDefaultData "objects" = .arr []
    ∧ getDefaultData "requests" = .arr []
    ∧ getDefaultData "profile" =
        .obj [("nome", .str ""), ("empresa", .str ""), ("inicioProject", .str ""),
              ("cliente", .str ""), ("avatar", .str "🚀")]
    ∧ getDefaultData "settings" =
        .obj [("theme", .str "light"), ("notifications", .bool true),
              ("autoSave", .bool true), ("language", .str "pt-BR")] := by
  rcases st with ⟨ls, db⟩
  refine ⟨?_, ?_, ?_, ?_, ?_, ?_, rfl, rfl, rfl, rfl, rfl⟩
  · intro d ys hdb hrf hst hne
    cases hdb
    have hlen : 0 < ys.length := by
      cases ys with
      | nil => exact absurd rfl hne
      | cons a l => simp
    simp only [loadData, getFromIndexedDB, hrf, Bool.false_eq_true, if_false,
      hn, if_true, hst, gt_iff_lt, hlen, if_pos]
  · intro hdb hls
    cases hdb
    simp [loadData, hls]
  · intro hdb hls
    cases hdb
    simp [loadData, hls]
  · intro d hdb hst hls
    cases hdb
    by_cases hrf : f.idbReadFail
    · simp [loadData, getFromIndexedDB, hrf, hn, hls]
    · simp only [loadData, getFromIndexedDB, hn, if_true,
        (by simpa using hrf : f.idbReadFail = false), Bool.false_eq_true, if_false,
        hst, List.length_nil, gt_iff_lt, Nat.lt_irrefl, hls]
  · intro j hdb hls
    cases hdb
    simp [loadData, hls]
  · intro d j hdb hst hls
    cases hdb
    by_cases hrf : f.idbReadFail
    · simp [loadData, getFromIndexedDB, hrf, hn, hls]
    · simp only [loadData, getFromIndexedDB, hn, if_true,
        (by simpa using hrf : f.idbReadFail = false), Bool.false_eq_true, if_false,
        hst, List.length_nil, gt_iff_lt, Nat.lt_irrefl, hls]

theorem claim_C9_witness :
    isCollection "tasks" = true
    ∧ loadData noFaults
        ⟨[("sap_migration_tasks", Stored.bad)],
         some ⟨[Json.obj [("id", Json.str "TSK001")]], [], []⟩⟩ "tasks"
      = .arr [Json.obj [("id", Json.str "TSK001")]]
    ∧ loadData noFaults ⟨[("sap_migration_tasks", Stored.bad)], none⟩ "tasks"
      = getDefaultData "tasks"
    ∧ loadData noFaults ⟨[], none⟩ "tasks" = getDefaultData "tasks"
    ∧ loadData noFaults
        ⟨[("sap_migration_tasks",
           Stored.json (Json.arr [Json.obj [("id", Json.str "TSK002")]]))], none⟩
        "tasks"
      = Json.arr [Json.obj [("id", Json.str "TSK002")]]
    ∧ loadData noFaults
        ⟨[("sap_migration_tasks",
           Stored.json (Json.arr [Json.obj [("id", Json.str "TSK003")]]))],
         some ⟨[], [], []⟩⟩ "tasks"
      = Json.arr [Json.obj [("id", Json.str "TSK003")]]
    ∧ getDefaultData "tasks" = .arr [] :=
  ⟨rfl,
    (claim_C9_loadData_fallback noFaults
      ⟨[("sap_migration_tasks", Stored.bad)],
       some ⟨[Json.obj [("id", Json.str "TSK001")]], [], []⟩⟩ "tasks" rfl).1
      ⟨[Json.obj [("id", Json.str "TSK001")]], [], []⟩
      [Json.obj [("id", Json.str "TSK001")]] rfl rfl rfl
      (List.cons_ne_nil _ _),
    (claim_C9_loadData_fallback noFaults
      ⟨[("sap_migration_tasks", Stored.bad)], none⟩ "tasks" rfl).2.2.1 rfl rfl,
    (claim_C9_loadData_fallback noFaults ⟨[], none⟩ "tasks" rfl).2.1 rfl rfl,
    (claim_C9_loadData_fallback noFaults
      ⟨[("sap_migration_tasks",
         Stored.json (Json.arr [Json.obj [("id", Json.str "TSK002")]]))], none⟩
      "tasks" rfl).2.2.2.2.1
      (Json.arr [Json.obj [("id", Json.str "TSK002")]]) rfl rfl,
    (claim_C9_loadData_fallback noFaults
      ⟨[("sap_migration_tasks",
         Stored.json (Json.arr [Json.obj [("id", Json.str "TSK003")]]))],
       some ⟨[], [], []⟩⟩ "tasks" rfl).2.2.2.2.2.1
      ⟨[], [], []⟩ (Json.arr [Json.obj [("id", Json.str "TSK003")]]) rfl rfl rfl,
    rfl⟩

/-! ## Claim C5 -/

/-- A structured `{success: Bool, message: String}` result object. -/
def isResultObj (j : Json) : Bool :=
  match j.get "success", j.get "message" with
  | some (.bool _), some (.str _) => true
  | _, _ => false

theorem saveData_ok_of_db_none (f : Faults) (ls : LStore) (n : String) (v : Json) :
    (saveData f ⟨ls, none⟩ n v).2 = .ok () := by
  cases hf : f.lsSetFail <;> simp [saveData, hf]

theorem saveData_ok_noncol_or_clearfail (f : Faults) (ls : LStore) (d : IDB)
    (n : String) (v : Json)
    (h : isCollection n = false ∨ f.idbClearFail = true) :
    (saveData f ⟨ls, some d⟩ n v).2 = .ok () := by
  rcases h with h | h
  · cases hf : f.lsSetFail <;> simp [saveData, hf, h]
  · by_cases hcol : isCollection n
    · cases hf : f.lsSetFail <;> simp [saveData, hf, hcol, h]
    · cases hf : f.lsSetFail <;>
        simp [saveData, hf, (by simpa using hcol : isCollection n = false)]

theorem saveData_settle_col (f : Faults) (ls : LStore) (d : IDB) (n : String)
    (v : Json) (hcol : isCollection n = true) (hcf : f.idbClearFail = false) :
    (saveData f ⟨ls, some d⟩ n v).2 =
      (if isNonemptyArr v = true then Settle.ok () else Settle.hang) := by
  cases v with
  | arr xs =>
    cases xs with
    | nil => cases hf : f.lsSetFail <;> simp [saveData, hf, hcol, hcf, isNonemptyArr]
    | cons y ys => cases hf : f.lsSetFail <;> simp [saveData, hf, hcol, hcf, isNonemptyArr]
  | null => cases hf : f.lsSetFail <;> simp [saveData, hf, hcol, hcf, isNonemptyArr]
  | bool b => cases hf : f.lsSetFail <;> simp [saveData, hf, hcol, hcf, isNonemptyArr]
  | num m => cases hf : f.lsSetFail <;> simp [saveData, hf, hcol, hcf, isNonemptyArr]
  | str s => cases hf : f.lsSetFail <;> simp [saveData, hf, hcol, hcf, isNonemptyArr]
  | obj kvs => cases hf : f.lsSetFail <;> simp [saveData, hf, hcol, hcf, isNonemptyArr]

/-- `saveData`'s promise fails to settle exactly when IndexedDB is open, the
resource is a collection, the clear step succeeded, and the data holds no
record to `add` (an empty array or a non-array value): only then does the
method reach `return new Promise(...)` on the already-committed refill
transaction.  In every other situation the promise resolves; no situation
rejects. -/
theorem saveData_hang_characterization (f : Faults) (st : St) (n : String)
    (v : Json) :
    (saveData f st n v).2 = Settle.hang ↔
      st.db ≠ none ∧ isCollection n = true ∧ f.idbClearFail = false
      ∧ isNonemptyArr v = false := by
  rcases st with ⟨ls, db⟩
  cases db with
  | none =>
    rw [saveData_ok_of_db_none]
    constructor
    · intro h
      exact Settle.noConfusion h
    · rintro ⟨hdb, -⟩
      exact absurd rfl hdb
  | some d =>
    by_cases hcol : isCollection n
    · by_cases hcf : f.idbClearFail
      · rw [saveData_ok_noncol_or_clearfail f ls d n v (.inr hcf)]
        constructor
        · intro h
          exact Settle.noConfusion h
        · rintro ⟨-, -, hcf', -⟩
          rw [hcf] at hcf'
          exact Bool.noConfusion hcf'
      · have hcf' : f.idbClearFail = false := by simpa using hcf
        rw [saveData_settle_col f ls d n v hcol hcf']
        by_cases hv : isNonemptyArr v = true
        · rw [if_pos hv]
          constructor
          · intro h
            exact Settle.noConfusion h
          · rintro ⟨-, -, -, hv'⟩
            rw [hv] at hv'
            exact Bool.noConfusion hv'
        · rw [if_neg hv]
          exact ⟨fun _ => ⟨by simp, hcol, hcf', by simpa using hv⟩, fun _ => rfl⟩
    · rw [saveData_ok_noncol_or_clearfail f ls d n v
        (.inl (by simpa using hcol))]
      constructor
      · intro h
        exact Settle.noConfusion h
      · rintro ⟨-, hcol', -⟩
        exact absurd hcol' hcol

theorem clearAllData_result_structured (f : Faults) (st : St) :
    isResultObj (clearAllData f st).2 = true := by
  rcases st with ⟨ls, db⟩
  cases db with
  | none => rfl
  | some d => cases hcf : f.idbClearFail <;> simp [clearAllData, hcf, isResultObj, Json.get, List.lookup]

/-- Whenever `importData` settles, the value it resolves with is a
structured `{success, message}` object — the success report, or the caught
parse failure. -/
theorem importData_ok_structured (f : Faults) (st : St) (input : Stored)
    (st' : St) (j : Json) (h : importData f st input = (st', Settle.ok j)) :
    isResultObj j = true := by
  cases input with
  | bad =>
    simp only [importData] at h
    injection h with h1 h2
    injection h2 with h3
    rw [← h3]
    rfl
  | json data =>
    cases hrr : importStep f "requests" data
        (importStep f "objects" data
          (importStep f "tasks" data
            (importStep f "settings" data
              (importStep f "profile" data (st, true))))) with
    | mk stx b =>
      cases b with
      | true =>
        simp only [importData, hrr] at h
        injection h with h1 h2
        injection h2 with h3
        rw [← h3]
        rfl
      | false =>
        simp only [importData, hrr] at h
        injection h with h1 h2
        exact Settle.noConfusion h2

/-- C5 (amended): the load and save methods never raise or reject — every
backend throw or rejection inside them is caught — but with IndexedDB open a
whole-collection save of an empty-array or non-array value returns a promise
that never settles, because the method attaches its completion handlers to
the refill transaction, which auto-committed during the awaited clear; and
both `clearAllData` and `importData` — not only `importData` — return
structured success/failure result objects. -/
theorem claim_C5_failure_semantics (f : Faults) (st : St) (n : String)
    (v : Json) (input : Stored) :
    ((saveData f st n v).2 = Settle.hang ↔
      st.db ≠ none ∧ isCollection n = true ∧ f.idbClearFail = false
      ∧ isNonemptyArr v = false)
    ∧ (st.db = none → (saveData f st n v).2 = .ok ())
    ∧ isResultObj (clearAllData f st).2 = true
    ∧ (∀ st' j, importData f st input = (st', Settle.ok j) →
        isResultObj j = true) := by
  refine ⟨saveData_hang_characterization f st n v, ?_,
    clearAllData_result_structured f st, ?_⟩
  · intro h
    rcases st with ⟨ls, db⟩
    cases h
    exact saveData_ok_of_db_none f ls n v
  · intro st' j h
    exact importData_ok_structured f st input st' j h

/-- C5 counterexample to the claim as stated: `clearAllData` also returns a
structured `{success, message}` result object, so "only `importData` returns
a structured success/failure result object" is false. -/
theorem claim_C5_counterexample :
    isResultObj (clearAllData noFaults ⟨[], none⟩).2 = true
    ∧ (clearAllData noFaults ⟨[], none⟩).2.get "success" = some (.bool true)
    ∧ (clearAllData noFaults ⟨[], none⟩).2.get "message"
        = some (.str "Todos os dados foram limpos!") := ⟨rfl, rfl, rfl⟩

theorem claim_C5_witness :
    (saveData noFaults ⟨[], some ⟨[], [], []⟩⟩ "tasks" (Json.arr [])).2
        = Settle.hang
    ∧ (saveData noFaults ⟨[], none⟩ "tasks" (Json.arr [])).2 = Settle.ok ()
    ∧ isResultObj (clearAllData noFaults ⟨[], some ⟨[], [], []⟩⟩).2 = true
    ∧ isResultObj (Json.obj [("success", Json.bool true),
        ("message", Json.str "Dados importados com sucesso!")]) = true :=
  ⟨(claim_C5_failure_semantics noFaults ⟨[], some ⟨[], [], []⟩⟩ "tasks"
      (Json.arr []) Stored.bad).1.mpr
      ⟨fun h => Option.noConfusion h, rfl, rfl, rfl⟩,
   (claim_C5_failure_semantics noFaults ⟨[], none⟩ "tasks"
      (Json.arr []) Stored.bad).2.1 rfl,
   (claim_C5_failure_semantics noFaults ⟨[], some ⟨[], [], []⟩⟩ "tasks"
      (Json.arr []) Stored.bad).2.2.1,
   (claim_C5_failure_semantics noFaults ⟨[], none⟩ "tasks" (Json.arr [])
      (Stored.json (Json.obj []))).2.2.2 ⟨[], none⟩ _ rfl⟩


/-! ## Claim C7 -/

/-- The parsed-document branch of `importData`, as an equation usable for
rewriting the five-step chain. -/
theorem importData_json_chain (f : Faults) (st : St) (data : Json) :
    importData f st (.json data) =
      (match importStep f "requests" data
          (importStep f "objects" data
            (importStep f "tasks" data
              (importStep f "settings" data
                (importStep f "profile" data (st, true))))) with
       | (st', true) =>
         (st', Settle.ok (Json.obj [("success", Json.bool true),
             ("message", Json.str "Dados importados com sucesso!")]))
       | (st', false) => (st', Settle.hang)) := rfl

/-- `loadData` only looks at the key-value entry and the indexed store of
the requested resource: two IndexedDB-open states agreeing there load the
same value. -/
theorem loadData_ext_some (f : Faults) (ls ls' : LStore) (d d' : IDB) (n : String)
    (hst : d'.getStore n = d.getStore n)
    (hls : lsGet ls' ((keyFor n).getD "undefined") =
           lsGet ls ((keyFor n).getD "undefined")) :
    loadData f ⟨ls', some d'⟩ n = loadData f ⟨ls, some d⟩ n := by
  by_cases hcol : isCollection n
  · by_cases hrf : f.idbReadFail
    · simp [loadData, getFromIndexedDB, hrf, hcol, hls]
    · simp [loadData, getFromIndexedDB,
        (by simpa using hrf : f.idbReadFail = false), hcol, hst, hls]
  · simp [loadData, (by simpa using hcol : isCollection n = false), hls]

/-- Effect of one `importData` step when IndexedDB is unavailable: the step's
own key is overwritten in the key-value store exactly when the document
carries a truthy value for it, every other key is untouched, and the import
keeps running. -/
theorem importStep_db_none_shape (k kk : String)
    (hkk : (keyFor k).getD "undefined" = kk) (doc : Json) (ls : LStore) :
    ∃ ls', importStep noFaults k doc (⟨ls, none⟩, true) = (⟨ls', none⟩, true)
      ∧ lsGet ls' kk =
          (match doc.get k with
           | some v => if v.truthy then some (.json v) else lsGet ls kk
           | none => lsGet ls kk)
      ∧ ∀ r : String, r ≠ kk → lsGet ls' r = lsGet ls r := by
  cases hkk
  cases hk : doc.get k with
  | none => exact ⟨ls, by simp [importStep, hk], by simp [hk], fun r _ => rfl⟩
  | some v =>
    by_cases hv : v.truthy
    · refine ⟨lsSet ls ((keyFor k).getD "undefined") (.json v), ?_, ?_, ?_⟩
      · simp [importStep, hk, hv, saveData_db_none]
      · simp [hk, hv, lsGet_lsSet_self]
      · intro r hr
        exact lsGet_lsSet_ne _ _ _ _ hr
    · refine ⟨ls, ?_, ?_, fun r _ => rfl⟩
      · simp [importStep, hk, (by simpa using hv : v.truthy = false)]
      · simp [hk, (by simpa using hv : v.truthy = false)]

/-- Effect of one `importData` step when IndexedDB is open, provided the
step's value — if it is a truthy collection value — is a non-empty array, so
that the awaited save settles: the key-value entry for the step's own key is
overwritten exactly when the document carries a truthy value for it, other
key-value entries and other stores are untouched, a truthy-present
collection value leaves its own store cleared, and the import keeps
running. -/
theorem importStep_db_some_shape (k kk : String)
    (hkk : (keyFor k).getD "undefined" = kk) (doc : Json) (ls : LStore) (d : IDB)
    (hsafe : isCollection k = true → ∀ v, doc.get k = some v →
      v.truthy = true → isNonemptyArr v = true) :
    ∃ ls' d', importStep noFaults k doc (⟨ls, some d⟩, true)
        = (⟨ls', some d'⟩, true)
      ∧ lsGet ls' kk =
          (match doc.get k with
           | some v => if v.truthy then some (.json v) else lsGet ls kk
           | none => lsGet ls kk)
      ∧ (∀ r : String, r ≠ kk → lsGet ls' r = lsGet ls r)
      ∧ (∀ m : String, m ≠ k → d'.getStore m = d.getStore m)
      ∧ (truthyU (doc.get k) = false → d' = d)
      ∧ (isCollection k = false → d' = d)
      ∧ (isCollection k = true → truthyU (doc.get k) = true →
          d'.getStore k = some []) := by
  cases hkk
  cases hk : doc.get k with
  | none =>
    refine ⟨ls, d, by simp [importStep, hk], by simp [hk], fun r _ => rfl,
      fun m _ => rfl, fun _ => rfl, fun _ => rfl, ?_⟩
    intro _ htr
    exact absurd htr (by simp [truthyU])
  | some v =>
    by_cases hv : v.truthy
    · by_cases hcol : isCollection k
      · have hne : isNonemptyArr v = true := hsafe hcol v hk hv
        obtain ⟨x, xs, rfl⟩ : ∃ x xs, v = .arr (x :: xs) := by
          cases v with
          | arr l =>
            cases l with
            | nil => simp [isNonemptyArr] at hne
            | cons a as => exact ⟨a, as, rfl⟩
          | null => simp [isNonemptyArr] at hne
          | bool b => simp [isNonemptyArr] at hne
          | num m => simp [isNonemptyArr] at hne
          | str s => simp [isNonemptyArr] at hne
          | obj kvs => simp [isNonemptyArr] at hne
        refine ⟨lsSet ls ((keyFor k).getD "undefined") (.json (.arr (x :: xs))),
          d.setStore k [], ?_, ?_, ?_, ?_, ?_, ?_, ?_⟩
        · simp [importStep, hk, hv,
            saveData_col_ne_nil ls d k (x :: xs) hcol (List.cons_ne_nil x xs)]
        · simp [hk, hv, lsGet_lsSet_self]
        · intro r hr
          exact lsGet_lsSet_ne _ _ _ _ hr
        · intro m hm
          exact getStore_setStore_ne d k m [] hcol hm
        · intro hfal
          simp [truthyU, Json.truthy] at hfal
        · intro hcolF
          exact absurd hcol (by simp [hcolF])
        · intro _ _
          exact getStore_setStore_self d k [] hcol
      · have hcol' : isCollection k = false := by simpa using hcol
        refine ⟨lsSet ls ((keyFor k).getD "undefined") (.json v), d, ?_, ?_, ?_,
          fun m _ => rfl, fun _ => rfl, fun _ => rfl, ?_⟩
        · simp [importStep, hk, hv, saveData_noncol ls (some d) k v hcol']
        · simp [hk, hv, lsGet_lsSet_self]
        · intro r hr
          exact lsGet_lsSet_ne _ _ _ _ hr
        · intro hcolT _
          rw [hcolT] at hcol'
          exact Bool.noConfusion hcol'
    · have hv' : v.truthy = false := by simpa using hv
      refine ⟨ls, d, ?_, ?_, fun r _ => rfl, fun m _ => rfl, fun _ => rfl,
        fun _ => rfl, ?_⟩
      · simp [importStep, hk, hv']
      · simp [hk, hv']
      · intro _ htr
        simp [truthyU, hv'] at htr

/-- The C7 overwrite/frame property with IndexedDB unavailable. -/
theorem c7_frame_db_none (ls : LStore) (doc : Json) :
    ∀ r ∈ ["profile", "settings", "tasks", "objects", "requests"],
      (∀ v, doc.get r = some v → v.truthy = true →
         loadData noFaults (importData noFaults ⟨ls, none⟩ (.json doc)).1 r = v)
      ∧ (truthyU (doc.get r) = false →
         loadData noFaults (importData noFaults ⟨ls, none⟩ (.json doc)).1 r =
           loadData noFaults ⟨ls, none⟩ r) := by
  obtain ⟨ls1, hstep1, hself1, hother1⟩ :=
    importStep_db_none_shape "profile" "sap_migration_profile" rfl doc ls
  obtain ⟨ls2, hstep2, hself2, hother2⟩ :=
    importStep_db_none_shape "settings" "sap_migration_settings" rfl doc ls1
  obtain ⟨ls3, hstep3, hself3, hother3⟩ :=
    importStep_db_none_shape "tasks" "sap_migration_tasks" rfl doc ls2
  obtain ⟨ls4, hstep4, hself4, hother4⟩ :=
    importStep_db_none_shape "objects" "sap_migration_objects" rfl doc ls3
  obtain ⟨ls5, hstep5, hself5, hother5⟩ :=
    importStep_db_none_shape "requests" "sap_migration_requests" rfl doc ls4
  have hchain : (importData noFaults ⟨ls, none⟩ (.json doc)).1 = ⟨ls5, none⟩ := by
    rw [importData_json_chain, hstep1, hstep2, hstep3, hstep4, hstep5]
  intro r hr
  fin_cases hr
  · -- profile
    have h5 := hother5 "sap_migration_profile" (by decide)
    have h4 := hother4 "sap_migration_profile" (by decide)
    have h3 := hother3 "sap_migration_profile" (by decide)
    have h2 := hother2 "sap_migration_profile" (by decide)
    constructor
    · intro v hv htr
      have hset : lsGet ls1 "sap_migration_profile" = some (.json v) := by
        simpa [hv, htr] using hself1
      rw [hchain, loadData_db_none]
      show (match lsGet ls5 "sap_migration_profile" with
            | some (.json j) => j
            | some .bad => getDefaultData "profile"
            | none => getDefaultData "profile") = v
      rw [h5, h4, h3, h2, hset]
    · intro hfal
      have hkeep : lsGet ls1 "sap_migration_profile" =
          lsGet ls "sap_migration_profile" := by
        cases hk : doc.get "profile" with
        | none => simpa [hk] using hself1
        | some v =>
          have hvf : v.truthy = false := by
            rw [hk] at hfal; simpa [truthyU] using hfal
          simpa [hk, hvf] using hself1
      rw [hchain, loadData_db_none, loadData_db_none]
      show (match lsGet ls5 "sap_migration_profile" with
            | some (.json j) => j
            | some .bad => getDefaultData "profile"
            | none => getDefaultData "profile") = _
      rw [h5, h4, h3, h2, hkeep]
      rfl
  · -- settings
    have h5 := hother5 "sap_migration_settings" (by decide)
    have h4 := hother4 "sap_migration_settings" (by decide)
    have h3 := hother3 "sap_migration_settings" (by decide)
    have h1 := hother1 "sap_migration_settings" (by decide)
    constructor
    · intro v hv htr
      have hset : lsGet ls2 "sap_migration_settings" = some (.json v) := by
        simpa [hv, htr] using hself2
      rw [hchain, loadData_db_none]
      show (match lsGet ls5 "sap_migration_settings" with
            | some (.json j) => j
            | some .bad => getDefaultData "settings"
            | none => getDefaultData "settings") = v
      rw [h5, h4, h3, hset]
    · intro hfal
      have hkeep : lsGet ls2 "sap_migration_settings" =
          lsGet ls1 "sap_migration_settings" := by
        cases hk : doc.get "settings" with
        | none => simpa [hk] using hself2
        | some v =>
          have hvf : v.truthy = false := by
            rw [hk] at hfal; simpa [truthyU] using hfal
          simpa [hk, hvf] using hself2
      rw [hchain, loadData_db_none, loadData_db_none]
      show (match lsGet ls5 "sap_migration_settings" with
            | some (.json j) => j
            | some .bad => getDefaultData "settings"
            | none => getDefaultData "settings") = _
      rw [h5, h4, h3, hkeep, h1]
      rfl
  · -- tasks
    have h5 := hother5 "sap_migration_tasks" (by decide)
    have h4 := hother4 "sap_migration_tasks" (by decide)
    have h2 := hother2 "sap_migration_tasks" (by decide)
    have h1 := hother1 "sap_migration_tasks" (by decide)
    constructor
    · intro v hv htr
      have hset : lsGet ls3 "sap_migration_tasks" = some (.json v) := by
        simpa [hv, htr] using hself3
      rw [hchain, loadData_db_none]
      show (match lsGet ls5 "sap_migration_tasks" with
            | some (.json j) => j
            | some .bad => getDefaultData "tasks"
            | none => getDefaultData "tasks") = v
      rw [h5, h4, hset]
    · intro hfal
      have hkeep : lsGet ls3 "sap_migration_tasks" =
          lsGet ls2 "sap_migration_tasks" := by
        cases hk : doc.get "tasks" with
        | none => simpa [hk] using hself3
        | some v =>
          have hvf : v.truthy = false := by
            rw [hk] at hfal; simpa [truthyU] using hfal
          simpa [hk, hvf] using hself3
      rw [hchain, loadData_db_none, loadData_db_none]
      show (match lsGet ls5 "sap_migration_tasks" with
            | some (.json j) => j
            | some .bad => getDefaultData "tasks"
            | none => getDefaultData "tasks") = _
      rw [h5, h4, hkeep, h2, h1]
      rfl
  · -- objects
    have h5 := hother5 "sap_migration_objects" (by decide)
    have h3 := hother3 "sap_migration_objects" (by decide)
    have h2 := hother2 "sap_migration_objects" (by decide)
    have h1 := hother1 "sap_migration_objects" (by decide)
    constructor
    · intro v hv htr
      have hset : lsGet ls4 "sap_migration_objects" = some (.json v) := by
        simpa [hv, htr] using hself4
      rw [hchain, loadData_db_none]
      show (match lsGet ls5 "sap_migration_objects" with
            | some (.json j) => j
            | some .bad => getDefaultData "objects"
            | none => getDefaultData "objects") = v
      rw [h5, hset]
    · intro hfal
      have hkeep : lsGet ls4 "sap_migration_objects" =
          lsGet ls3 "sap_migration_objects" := by
        cases hk : doc.get "objects" with
        | none => simpa [hk] using hself4
        | some v =>
          have hvf : v.truthy = false := by
            rw [hk] at hfal; simpa [truthyU] using hfal
          simpa [hk, hvf] using hself4
      rw [hchain, loadData_db_none, loadData_db_none]
      show (match lsGet ls5 "sap_migration_objects" with
            | some (.json j) => j
            | some .bad => getDefaultData "objects"
            | none => getDefaultData "objects") = _
      rw [h5, hkeep, h3, h2, h1]
      rfl
  · -- requests
    have h4 := hother4 "sap_migration_requests" (by decide)
    have h3 := hother3 "sap_migration_requests" (by decide)
    have h2 := hother2 "sap_migration_requests" (by decide)
    have h1 := hother1 "sap_migration_requests" (by decide)
    constructor
    · intro v hv htr
      have hset : lsGet ls5 "sap_migration_requests" = some (.json v) := by
        simpa [hv, htr] using hself5
      rw [hchain, loadData_db_none]
      show (match lsGet ls5 "sap_migration_requests" with
            | some (.json j) => j
            | some .bad => getDefaultData "requests"
            | none => getDefaultData "requests") = v
      rw [hset]
    · intro hfal
      have hkeep : lsGet ls5 "sap_migration_requests" =
          lsGet ls4 "sap_migration_requests" := by
        cases hk : doc.get "requests" with
        | none => simpa [hk] using hself5
        | some v =>
          have hvf : v.truthy = false := by
            rw [hk] at hfal; simpa [truthyU] using hfal
          simpa [hk, hvf] using hself5
      rw [hchain, loadData_db_none, loadData_db_none]
      show (match lsGet ls5 "sap_migration_requests" with
            | some (.json j) => j
            | some .bad => getDefaultData "requests"
            | none => getDefaultData "requests") = _
      rw [hkeep, h4, h3, h2, h1]
      rfl

/-- The C7 overwrite/frame property with IndexedDB open, under the proviso
that every truthy-present collection value in the document is a non-empty
array (otherwise the import stalls — see the C7 counterexample). -/
theorem c7_frame_db_some (ls : LStore) (d : IDB) (doc : Json)
    (hsafe : ∀ k, isCollection k = true → ∀ v, doc.get k = some v →
      v.truthy = true → isNonemptyArr v = true) :
    ∀ r ∈ ["profile", "settings", "tasks", "objects", "requests"],
      (∀ v, doc.get r = some v → v.truthy = true →
         loadData noFaults (importData noFaults ⟨ls, some d⟩ (.json doc)).1 r = v)
      ∧ (truthyU (doc.get r) = false →
         loadData noFaults (importData noFaults ⟨ls, some d⟩ (.json doc)).1 r =
           loadData noFaults ⟨ls, some d⟩ r) := by
  obtain ⟨ls1, d1, hstep1, hself1, hother1, _hst1, _hfal1, hnc1, _hcol1⟩ :=
    importStep_db_some_shape "profile" "sap_migration_profile" rfl doc ls d
      (fun hcol => absurd hcol (by decide))
  obtain ⟨ls2, d2, hstep2, hself2, hother2, _hst2, _hfal2, hnc2, _hcol2⟩ :=
    importStep_db_some_shape "settings" "sap_migration_settings" rfl doc ls1 d1
      (fun hcol => absurd hcol (by decide))
  obtain ⟨ls3, d3, hstep3, hself3, hother3, hst3, hfal3, _hnc3, hcol3⟩ :=
    importStep_db_some_shape "tasks" "sap_migration_tasks" rfl doc ls2 d2
      (hsafe "tasks")
  obtain ⟨ls4, d4, hstep4, hself4, hother4, hst4, hfal4, _hnc4, hcol4⟩ :=
    importStep_db_some_shape "objects" "sap_migration_objects" rfl doc ls3 d3
      (hsafe "objects")
  obtain ⟨ls5, d5, hstep5, hself5, hother5, hst5, hfal5, _hnc5, hcol5⟩ :=
    importStep_db_some_shape "requests" "sap_migration_requests" rfl doc ls4 d4
      (hsafe "requests")
  have hchain : (importData noFaults ⟨ls, some d⟩ (.json doc)).1 =
      ⟨ls5, some d5⟩ := by
    rw [importData_json_chain, hstep1, hstep2, hstep3, hstep4, hstep5]
  have hd1 : d1 = d := hnc1 (by decide)
  have hd2 : d2 = d1 := hnc2 (by decide)
  intro r hr
  fin_cases hr
  · -- profile
    have h5 := hother5 "sap_migration_profile" (by decide)
    have h4 := hother4 "sap_migration_profile" (by decide)
    have h3 := hother3 "sap_migration_profile" (by decide)
    have h2 := hother2 "sap_migration_profile" (by decide)
    constructor
    · intro v hv htr
      have hset : lsGet ls1 "sap_migration_profile" = some (.json v) := by
        simpa [hv, htr] using hself1
      rw [hchain, loadData_db_some_noncol ls5 d5 "profile" (by decide)]
      show (match lsGet ls5 "sap_migration_profile" with
            | some (.json j) => j
            | some .bad => getDefaultData "profile"
            | none => getDefaultData "profile") = v
      rw [h5, h4, h3, h2, hset]
    · intro hfal
      have hkeep : lsGet ls1 "sap_migration_profile" =
          lsGet ls "sap_migration_profile" := by
        cases hk : doc.get "profile" with
        | none => simpa [hk] using hself1
        | some v =>
          have hvf : v.truthy = false := by
            rw [hk] at hfal; simpa [truthyU] using hfal
          simpa [hk, hvf] using hself1
      rw [hchain, loadData_db_some_noncol ls5 d5 "profile" (by decide),
        loadData_db_some_noncol ls d "profile" (by decide)]
      show (match lsGet ls5 "sap_migration_profile" with
            | some (.json j) => j
            | some .bad => getDefaultData "profile"
            | none => getDefaultData "profile") = _
      rw [h5, h4, h3, h2, hkeep]
      rfl
  · -- settings
    have h5 := hother5 "sap_migration_settings" (by decide)
    have h4 := hother4 "sap_migration_settings" (by decide)
    have h3 := hother3 "sap_migration_settings" (by decide)
    have h1 := hother1 "sap_migration_settings" (by decide)
    constructor
    · intro v hv htr
      have hset : lsGet ls2 "sap_migration_settings" = some (.json v) := by
        simpa [hv, htr] using hself2
      rw [hchain, loadData_db_some_noncol ls5 d5 "settings" (by decide)]
      show (match lsGet ls5 "sap_migration_settings" with
            | some (.json j) => j
            | some .bad => getDefaultData "settings"
            | none => getDefaultData "settings") = v
      rw [h5, h4, h3, hset]
    · intro hfal
      have hkeep : lsGet ls2 "sap_migration_settings" =
          lsGet ls1 "sap_migration_settings" := by
        cases hk : doc.get "settings" with
        | none => simpa [hk] using hself2
        | some v =>
          have hvf : v.truthy = false := by
            rw [hk] at hfal; simpa [truthyU] using hfal
          simpa [hk, hvf] using hself2
      rw [hchain, loadData_db_some_noncol ls5 d5 "settings" (by decide),
        loadData_db_some_noncol ls d "settings" (by decide)]
      show (match lsGet ls5 "sap_migration_settings" with
            | some (.json j) => j
            | some .bad => getDefaultData "settings"
            | none => getDefaultData "settings") = _
      rw [h5, h4, h3, hkeep, h1]
      rfl
  · -- tasks
    have h5 := hother5 "sap_migration_tasks" (by decide)
    have h4 := hother4 "sap_migration_tasks" (by decide)
    have h2 := hother2 "sap_migration_tasks" (by decide)
    have h1 := hother1 "sap_migration_tasks" (by decide)
    constructor
    · intro v hv htr
      have hset : lsGet ls3 "sap_migration_tasks" = some (.json v) := by
        simpa [hv, htr] using hself3
      have htrU : truthyU (doc.get "tasks") = true := by
        rw [hv]; simpa [truthyU] using htr
      have hd3 : d3.getStore "tasks" = some [] := hcol3 (by decide) htrU
      have hd5T : d5.getStore "tasks" = some [] := by
        rw [hst5 "tasks" (by decide), hst4 "tasks" (by decide), hd3]
      rw [hchain, loadData_db_some_col ls5 d5 "tasks" [] (by decide) hd5T,
        if_neg (by simp)]
      show (match lsGet ls5 "sap_migration_tasks" with
            | some (.json j) => j
            | some .bad => getDefaultData "tasks"
            | none => getDefaultData "tasks") = v
      rw [h5, h4, hset]
    · intro hfal
      have hkeep : lsGet ls3 "sap_migration_tasks" =
          lsGet ls2 "sap_migration_tasks" := by
        cases hk : doc.get "tasks" with
        | none => simpa [hk] using hself3
        | some v =>
          have hvf : v.truthy = false := by
            rw [hk] at hfal; simpa [truthyU] using hfal
          simpa [hk, hvf] using hself3
      have hls : lsGet ls5 "sap_migration_tasks" =
          lsGet ls "sap_migration_tasks" := by
        rw [h5, h4, hkeep, h2, h1]
      have hdd : d5.getStore "tasks" = d.getStore "tasks" := by
        rw [hst5 "tasks" (by decide), hst4 "tasks" (by decide), hfal3 hfal,
          hd2, hd1]
      rw [hchain]
      exact loadData_ext_some noFaults ls ls5 d d5 "tasks" hdd hls
  · -- objects
    have h5 := hother5 "sap_migration_objects" (by decide)
    have h3 := hother3 "sap_migration_objects" (by decide)
    have h2 := hother2 "sap_migration_objects" (by decide)
    have h1 := hother1 "sap_migration_objects" (by decide)
    constructor
    · intro v hv htr
      have hset : lsGet ls4 "sap_migration_objects" = some (.json v) := by
        simpa [hv, htr] using hself4
      have htrU : truthyU (doc.get "objects") = true := by
        rw [hv]; simpa [truthyU] using htr
      have hd4 : d4.getStore "objects" = some [] := hcol4 (by decide) htrU
      have hd5O : d5.getStore "objects" = some [] := by
        rw [hst5 "objects" (by decide), hd4]
      rw [hchain, loadData_db_some_col ls5 d5 "objects" [] (by decide) hd5O,
        if_neg (by simp)]
      show (match lsGet ls5 "sap_migration_objects" with
            | some (.json j) => j
            | some .bad => getDefaultData "objects"
            | none => getDefaultData "objects") = v
      rw [h5, hset]
    · intro hfal
      have hkeep : lsGet ls4 "sap_migration_objects" =
          lsGet ls3 "sap_migration_objects" := by
        cases hk : doc.get "objects" with
        | none => simpa [hk] using hself4
        | some v =>
          have hvf : v.truthy = false := by
            rw [hk] at hfal; simpa [truthyU] using hfal
          simpa [hk, hvf] using hself4
      have hls : lsGet ls5 "sap_migration_objects" =
          lsGet ls "sap_migration_objects" := by
        rw [h5, hkeep, h3, h2, h1]
      have hdd : d5.getStore "objects" = d.getStore "objects" := by
        rw [hst5 "objects" (by decide), hfal4 hfal, hst3 "objects" (by decide),
          hd2, hd1]
      rw [hchain]
      exact loadData_ext_some noFaults ls ls5 d d5 "objects" hdd hls
  · -- requests
    have h4 := hother4 "sap_migration_requests" (by decide)
    have h3 := hother3 "sap_migration_requests" (by decide)
    have h2 := hother2 "sap_migration_requests" (by decide)
    have h1 := hother1 "sap_migration_requests" (by decide)
    constructor
    · intro v hv htr
      have hset : lsGet ls5 "sap_migration_requests" = some (.json v) := by
        simpa [hv, htr] using hself5
      have htrU : truthyU (doc.get "requests") = true := by
        rw [hv]; simpa [truthyU] using htr
      have hd5R : d5.getStore "requests" = some [] := hcol5 (by decide) htrU
      rw [hchain, loadData_db_some_col ls5 d5 "requests" [] (by decide) hd5R,
        if_neg (by simp)]
      show (match lsGet ls5 "sap_migration_requests" with
            | some (.json j) => j
            | some .bad => getDefaultData "requests"
            | none => getDefaultData "requests") = v
      rw [hset]
    · intro hfal
      have hkeep : lsGet ls5 "sap_migration_requests" =
          lsGet ls4 "sap_migration_requests" := by
        cases hk : doc.get "requests" with
        | none => simpa [hk] using hself5
        | some v =>
          have hvf : v.truthy = false := by
            rw [hk] at hfal; simpa [truthyU] using hfal
          simpa [hk, hvf] using hself5
      have hls : lsGet ls5 "sap_migration_requests" =
          lsGet ls "sap_migration_requests" := by
        rw [hkeep, h4, h3, h2, h1]
      have hdd : d5.getStore "requests" = d.getStore "requests" := by
        rw [hfal5 hfal, hst4 "requests" (by decide), hst3 "requests" (by decide),
          hd2, hd1]
      rw [hchain]
      exact loadData_ext_some noFaults ls ls5 d d5 "requests" hdd hls

/-- C7 (amended): `importData` overwrites exactly the resources whose
top-level keys are present *with truthy values* and leaves every resource
whose key is absent — or present but falsy, such as `null` — unchanged,
provided that, when IndexedDB is open, every truthy-present collection value
is a non-empty array: an empty-array (or non-array) collection value makes
that save's promise never settle, stalling the import before every later
key (see the counterexample).  With IndexedDB unavailable no proviso is
needed. -/
theorem claim_C7_import_frame (st : St) (doc : Json)
    (hsafe : st.db = none ∨
      ∀ k, isCollection k = true → ∀ v, doc.get k = some v →
        v.truthy = true → isNonemptyArr v = true) :
    ∀ r ∈ ["profile", "settings", "tasks", "objects", "requests"],
      (∀ v, doc.get r = some v → v.truthy = true →
         loadData noFaults (importData noFaults st (.json doc)).1 r = v)
      ∧ (truthyU (doc.get r) = false →
         loadData noFaults (importData noFaults st (.json doc)).1 r =
           loadData noFaults st r) := by
  rcases st with ⟨ls, db⟩
  cases db with
  | some d =>
    rcases hsafe with h | h
    · exact absurd h (fun hh => Option.noConfusion hh)
    · exact c7_frame_db_some ls d doc h
  | none => exact c7_frame_db_none ls doc

/-- C7 counterexample: (i) importing `{tasks: null}` — whose `tasks` key *is*
present — leaves the stored tasks untouched at their old value (which differs
from the imported `null`), because the source tests truthiness
(`if (data.tasks)`), not key presence; (ii) with IndexedDB open, importing
`{objects: [], requests: [r]}` stalls at the empty `objects` array — that
save's promise never settles — so the truthy-present `requests` key is never
written: the import neither completes nor overwrites it (requests still
loads as the empty default, not as `[r]`). -/
theorem claim_C7_counterexample :
    (Json.obj [("tasks", Json.null)]).get "tasks" = some Json.null
    ∧ loadData noFaults
        (importData noFaults
          ⟨[("sap_migration_tasks",
             Stored.json (Json.arr [Json.obj [("id", Json.str "TSK001")]]))], none⟩
          (.json (Json.obj [("tasks", Json.null)]))).1 "tasks"
      = .arr [Json.obj [("id", Json.str "TSK001")]]
    ∧ Json.null ≠ Json.arr [Json.obj [("id", Json.str "TSK001")]]
    ∧ (importData noFaults ⟨[], some ⟨[], [], []⟩⟩
        (.json (Json.obj [("objects", Json.arr []),
          ("requests", Json.arr [Json.obj [("id", Json.str "REQ001")]])]))).2
      = Settle.hang
    ∧ loadData noFaults (importData noFaults ⟨[], some ⟨[], [], []⟩⟩
        (.json (Json.obj [("objects", Json.arr []),
          ("requests", Json.arr [Json.obj [("id", Json.str "REQ001")]])]))).1
        "requests"
      = Json.arr []
    ∧ Json.arr ([] : List Json)
        ≠ Json.arr [Json.obj [("id", Json.str "REQ001")]] :=
  ⟨rfl, rfl, fun h => Json.noConfusion h, rfl, rfl,
   fun h => List.noConfusion (Json.arr.inj h)⟩

theorem claim_C7_witness :
    loadData noFaults
        (importData noFaults ⟨[("sap_migration_profile", Stored.json (Json.str "P"))], none⟩
          (.json (Json.obj [("tasks", Json.arr [Json.obj [("id", Json.str "TSK001")]]),
                     ("objects", Json.arr [])]))).1 "tasks"
      = Json.arr [Json.obj [("id", Json.str "TSK001")]]
    ∧ loadData noFaults
        (importData noFaults ⟨[("sap_migration_profile", Stored.json (Json.str "P"))], none⟩
          (.json (Json.obj [("tasks", Json.arr [Json.obj [("id", Json.str "TSK001")]]),
                     ("objects", Json.arr [])]))).1 "objects"
      = Json.arr []
    ∧ loadData noFaults
        (importData noFaults ⟨[("sap_migration_profile", Stored.json (Json.str "P"))], none⟩
          (.json (Json.obj [("tasks", Json.arr [Json.obj [("id", Json.str "TSK001")]]),
                     ("objects", Json.arr [])]))).1 "profile"
      = loadData noFaults ⟨[("sap_migration_profile", Stored.json (Json.str "P"))], none⟩ "profile"
    ∧ loadData noFaults
        (importData noFaults ⟨[("sap_migration_profile", Stored.json (Json.str "P"))], none⟩
          (.json (Json.obj [("tasks", Json.arr [Json.obj [("id", Json.str "TSK001")]]),
                     ("objects", Json.arr [])]))).1 "settings"
      = loadData noFaults ⟨[("sap_migration_profile", Stored.json (Json.str "P"))], none⟩ "settings"
    ∧ loadData noFaults
        (importData noFaults ⟨[("sap_migration_profile", Stored.json (Json.str "P"))], none⟩
          (.json (Json.obj [("tasks", Json.arr [Json.obj [("id", Json.str "TSK001")]]),
                     ("objects", Json.arr [])]))).1 "requests"
      = loadData noFaults ⟨[("sap_migration_profile", Stored.json (Json.str "P"))], none⟩ "requests"
    ∧ loadData noFaults
        (importData noFaults ⟨[], some ⟨[], [], []⟩⟩
          (.json (Json.obj [("tasks",
            Json.arr [Json.obj [("id", Json.str "TSK001")]])]))).1 "tasks"
      = Json.arr [Json.obj [("id", Json.str "TSK001")]] :=
  ⟨(claim_C7_import_frame ⟨[("sap_migration_profile", Stored.json (Json.str "P"))], none⟩
      (Json.obj [("tasks", Json.arr [Json.obj [("id", Json.str "TSK001")]]),
                 ("objects", Json.arr [])]) (Or.inl rfl) "tasks" (by simp)).1
      (Json.arr [Json.obj [("id", Json.str "TSK001")]]) rfl rfl,
   (claim_C7_import_frame ⟨[("sap_migration_profile", Stored.json (Json.str "P"))], none⟩
      (Json.obj [("tasks", Json.arr [Json.obj [("id", Json.str "TSK001")]]),
                 ("objects", Json.arr [])]) (Or.inl rfl) "objects" (by simp)).1
      (Json.arr []) rfl rfl,
   (claim_C7_import_frame ⟨[("sap_migration_profile", Stored.json (Json.str "P"))], none⟩
      (Json.obj [("tasks", Json.arr [Json.obj [("id", Json.str "TSK001")]]),
                 ("objects", Json.arr [])]) (Or.inl rfl) "profile" (by simp)).2 rfl,
   (claim_C7_import_frame ⟨[("sap_migration_profile", Stored.json (Json.str "P"))], none⟩
      (Json.obj [("tasks", Json.arr [Json.obj [("id", Json.str "TSK001")]]),
                 ("objects", Json.arr [])]) (Or.inl rfl) "settings" (by simp)).2 rfl,
   (claim_C7_import_frame ⟨[("sap_migration_profile", Stored.json (Json.str "P"))], none⟩
      (Json.obj [("tasks", Json.arr [Json.obj [("id", Json.str "TSK001")]]),
                 ("objects", Json.arr [])]) (Or.inl rfl) "requests" (by simp)).2 rfl,
   (claim_C7_import_frame ⟨[], some ⟨[], [], []⟩⟩
      (Json.obj [("tasks", Json.arr [Json.obj [("id", Json.str "TSK001")]])])
      (Or.inr (by
        intro k hcol v hv htr
        rcases isCollection_cases hcol with rfl | rfl | rfl
        · have hv' : some (Json.arr [Json.obj [("id", Json.str "TSK001")]])
              = some v := hv
          injection hv' with hv2
          rw [← hv2]
          rfl
        · exact Option.noConfusion (show (none : Option Json) = some v from hv)
        · exact Option.noConfusion (show (none : Option Json) = some v from hv)))
      "tasks" (by simp)).1
      (Json.arr [Json.obj [("id", Json.str "TSK001")]]) rfl rfl⟩

/-! ## Claim C8 -/

theorem getTasks_eq_arr (f : Faults) (st : St) :
    getTasks f st = .arr (getTasksL f st) := by
  cases hv : loadData f st "tasks" <;> simp [getTasks, getTasksL, hv, Json.isArr]

theorem getObjects_eq_arr (f : Faults) (st : St) :
    getObjects f st = .arr (getObjectsL f st) := by
  cases hv : loadData f st "objects" <;> simp [getObjects, getObjectsL, hv, Json.isArr]

theorem getRequests_eq_arr (f : Faults) (st : St) :
    getRequests f st = .arr (getRequestsL f st) := by
  cases hv : loadData f st "requests" <;> simp [getRequests, getRequestsL, hv, Json.isArr]

theorem clearAllData_state_none (ls : LStore) :
    (clearAllData noFaults ⟨ls, none⟩).1 = ⟨allKeys.foldl lsRemove ls, none⟩ := rfl

theorem clearAllData_state_some (ls : LStore) (d : IDB) :
    (clearAllData noFaults ⟨ls, some d⟩).1 =
      ⟨allKeys.foldl lsRemove ls, some ⟨[], [], []⟩⟩ := rfl

/-- Round trip when only the key-value backend is in use. -/
theorem c2_roundtrip_db_none (ls : LStore) (now : String)
    (hp : (loadData noFaults ⟨ls, none⟩ "profile").truthy = true)
    (hs : (loadData noFaults ⟨ls, none⟩ "settings").truthy = true) :
    let st : St := ⟨ls, none⟩
    let st2 := (importData noFaults (clearAllData noFaults st).1
      (.json (exportData noFaults st now))).1
    loadData noFaults st2 "profile" = loadData noFaults st "profile"
    ∧ loadData noFaults st2 "settings" = loadData noFaults st "settings"
    ∧ getTasks noFaults st2 = getTasks noFaults st
    ∧ getObjects noFaults st2 = getObjects noFaults st
    ∧ getRequests noFaults st2 = getRequests noFaults st := by
  intro st st2
  have hdp : (exportData noFaults st now).get "profile" =
      some (loadData noFaults st "profile") := rfl
  have hds : (exportData noFaults st now).get "settings" =
      some (loadData noFaults st "settings") := rfl
  have hdt : (exportData noFaults st now).get "tasks" =
      some (.arr (getTasksL noFaults st)) := by
    show some (getTasks noFaults st) = _
    rw [getTasks_eq_arr]
  have hdo : (exportData noFaults st now).get "objects" =
      some (.arr (getObjectsL noFaults st)) := by
    show some (getObjects noFaults st) = _
    rw [getObjects_eq_arr]
  have hdr : (exportData noFaults st now).get "requests" =
      some (.arr (getRequestsL noFaults st)) := by
    show some (getRequests noFaults st) = _
    rw [getRequests_eq_arr]
  obtain ⟨ls1, hstep1, hself1, hother1⟩ := importStep_db_none_shape "profile"
    "sap_migration_profile" rfl (exportData noFaults st now) (allKeys.foldl lsRemove ls)
  obtain ⟨ls2, hstep2, hself2, hother2⟩ := importStep_db_none_shape "settings"
    "sap_migration_settings" rfl (exportData noFaults st now) ls1
  obtain ⟨ls3, hstep3, hself3, hother3⟩ := importStep_db_none_shape "tasks"
    "sap_migration_tasks" rfl (exportData noFaults st now) ls2
  obtain ⟨ls4, hstep4, hself4, hother4⟩ := importStep_db_none_shape "objects"
    "sap_migration_objects" rfl (exportData noFaults st now) ls3
  obtain ⟨ls5, hstep5, hself5, hother5⟩ := importStep_db_none_shape "requests"
    "sap_migration_requests" rfl (exportData noFaults st now) ls4
  have hchain : st2 = ⟨ls5, none⟩ := by
    show (importData noFaults ⟨allKeys.foldl lsRemove ls, none⟩
      (.json (exportData noFaults st now))).1 = _
    rw [importData_json_chain, hstep1, hstep2, hstep3, hstep4, hstep5]
  have hget1 : lsGet ls1 "sap_migration_profile" =
      some (.json (loadData noFaults st "profile")) := by
    rw [hdp] at hself1
    simpa [hp] using hself1
  have hget2 : lsGet ls2 "sap_migration_settings" =
      some (.json (loadData noFaults st "settings")) := by
    rw [hds] at hself2
    simpa [hs] using hself2
  have hget3 : lsGet ls3 "sap_migration_tasks" =
      some (.json (.arr (getTasksL noFaults st))) := by
    rw [hdt] at hself3
    simpa [Json.truthy] using hself3
  have hget4 : lsGet ls4 "sap_migration_objects" =
      some (.json (.arr (getObjectsL noFaults st))) := by
    rw [hdo] at hself4
    simpa [Json.truthy] using hself4
  have hget5 : lsGet ls5 "sap_migration_requests" =
      some (.json (.arr (getRequestsL noFaults st))) := by
    rw [hdr] at hself5
    simpa [Json.truthy] using hself5
  rw [hchain]
  refine ⟨?_, ?_, ?_, ?_, ?_⟩
  · rw [loadData_db_none]
    show (match lsGet ls5 "sap_migration_profile" with
          | some (.json j) => j
          | some .bad => getDefaultData "profile"
          | none => getDefaultData "profile") = _
    rw [hother5 "sap_migration_profile" (by decide),
      hother4 "sap_migration_profile" (by decide),
      hother3 "sap_migration_profile" (by decide),
      hother2 "sap_migration_profile" (by decide), hget1]
  · rw [loadData_db_none]
    show (match lsGet ls5 "sap_migration_settings" with
          | some (.json j) => j
          | some .bad => getDefaultData "settings"
          | none => getDefaultData "settings") = _
    rw [hother5 "sap_migration_settings" (by decide),
      hother4 "sap_migration_settings" (by decide),
      hother3 "sap_migration_settings" (by decide), hget2]
  · have hload : loadData noFaults ⟨ls5, none⟩ "tasks" =
        .arr (getTasksL noFaults st) := by
      rw [loadData_db_none]
      show (match lsGet ls5 "sap_migration_tasks" with
            | some (.json j) => j
            | some .bad => getDefaultData "tasks"
            | none => getDefaultData "tasks") = _
      rw [hother5 "sap_migration_tasks" (by decide),
        hother4 "sap_migration_tasks" (by decide), hget3]
    rw [getTasks_eq_arr, getTasks_eq_arr, getTasksL_of_loadData hload]
  · have hload : loadData noFaults ⟨ls5, none⟩ "objects" =
        .arr (getObjectsL noFaults st) := by
      rw [loadData_db_none]
      show (match lsGet ls5 "sap_migration_objects" with
            | some (.json j) => j
            | some .bad => getDefaultData "objects"
            | none => getDefaultData "objects") = _
      rw [hother5 "sap_migration_objects" (by decide), hget4]
    rw [getObjects_eq_arr, getObjects_eq_arr, getObjectsL_of_loadData hload]
  · have hload : loadData noFaults ⟨ls5, none⟩ "requests" =
        .arr (getRequestsL noFaults st) := by
      rw [loadData_db_none]
      show (match lsGet ls5 "sap_migration_requests" with
            | some (.json j) => j
            | some .bad => getDefaultData "requests"
            | none => getDefaultData "requests") = _
      rw [hget5]
    rw [getRequests_eq_arr, getRequests_eq_arr, getRequestsL_of_loadData hload]

/-- Round trip when IndexedDB is open and the three exported collections are
non-empty: the import's refill `add`s all throw into the catch, so the
restored collections live in the `localStorage` copies while the stores end
up empty — the loads fall back to those copies.  (An *empty* exported
collection would instead make its save never settle, stalling the import:
see the C2 counterexample.) -/
theorem c2_roundtrip_db_some (ls : LStore) (d : IDB) (now : String)
    (hp : (loadData noFaults ⟨ls, some d⟩ "profile").truthy = true)
    (hs : (loadData noFaults ⟨ls, some d⟩ "settings").truthy = true)
    (ht : getTasksL noFaults ⟨ls, some d⟩ ≠ [])
    (ho : getObjectsL noFaults ⟨ls, some d⟩ ≠ [])
    (hr : getRequestsL noFaults ⟨ls, some d⟩ ≠ []) :
    let st : St := ⟨ls, some d⟩
    let st2 := (importData noFaults (clearAllData noFaults st).1
      (.json (exportData noFaults st now))).1
    loadData noFaults st2 "profile" = loadData noFaults st "profile"
    ∧ loadData noFaults st2 "settings" = loadData noFaults st "settings"
    ∧ getTasks noFaults st2 = getTasks noFaults st
    ∧ getObjects noFaults st2 = getObjects noFaults st
    ∧ getRequests noFaults st2 = getRequests noFaults st := by
  intro st st2
  have hdp : (exportData noFaults st now).get "profile" =
      some (loadData noFaults st "profile") := rfl
  have hds : (exportData noFaults st now).get "settings" =
      some (loadData noFaults st "settings") := rfl
  have hdt : (exportData noFaults st now).get "tasks" =
      some (.arr (getTasksL noFaults st)) := by
    show some (getTasks noFaults st) = _
    rw [getTasks_eq_arr]
  have hdo : (exportData noFaults st now).get "objects" =
      some (.arr (getObjectsL noFaults st)) := by
    show some (getObjects noFaults st) = _
    rw [getObjects_eq_arr]
  have hdr : (exportData noFaults st now).get "requests" =
      some (.arr (getRequestsL noFaults st)) := by
    show some (getRequests noFaults st) = _
    rw [getRequests_eq_arr]
  have hsv1 := saveData_noncol (allKeys.foldl lsRemove ls)
    (some (⟨[], [], []⟩ : IDB)) "profile" (loadData noFaults st "profile") (by decide)
  have hstep1 : importStep noFaults "profile" (exportData noFaults st now)
      (⟨allKeys.foldl lsRemove ls, some ⟨[], [], []⟩⟩, true) =
      (⟨lsSet (allKeys.foldl lsRemove ls) ((keyFor "profile").getD "undefined")
          (.json (loadData noFaults st "profile")), some ⟨[], [], []⟩⟩, true) := by
    simp only [importStep, hdp, hp, if_true, hsv1]
  have hsv2 := saveData_noncol
    (lsSet (allKeys.foldl lsRemove ls) ((keyFor "profile").getD "undefined")
      (.json (loadData noFaults st "profile")))
    (some (⟨[], [], []⟩ : IDB)) "settings" (loadData noFaults st "settings") (by decide)
  have hstep2 : importStep noFaults "settings" (exportData noFaults st now)
      (⟨lsSet (allKeys.foldl lsRemove ls) ((keyFor "profile").getD "undefined")
          (.json (loadData noFaults st "profile")), some ⟨[], [], []⟩⟩, true) =
      (⟨lsSet (lsSet (allKeys.foldl lsRemove ls) ((keyFor "profile").getD "undefined")
            (.json (loadData noFaults st "profile")))
          ((keyFor "settings").getD "undefined")
          (.json (loadData noFaults st "settings")), some ⟨[], [], []⟩⟩, true) := by
    simp only [importStep, hds, hs, if_true, hsv2]
  have hsv3 := saveData_col_ne_nil
    (lsSet (lsSet (allKeys.foldl lsRemove ls) ((keyFor "profile").getD "undefined")
        (.json (loadData noFaults st "profile")))
      ((keyFor "settings").getD "undefined") (.json (loadData noFaults st "settings")))
    (⟨[], [], []⟩ : IDB) "tasks" (getTasksL noFaults st) (by decide) ht
  have hstep3 : importStep noFaults "tasks" (exportData noFaults st now)
      (⟨lsSet (lsSet (allKeys.foldl lsRemove ls) ((keyFor "profile").getD "undefined")
            (.json (loadData noFaults st "profile")))
          ((keyFor "settings").getD "undefined")
          (.json (loadData noFaults st "settings")), some ⟨[], [], []⟩⟩, true) =
      (⟨lsSet (lsSet (lsSet (allKeys.foldl lsRemove ls)
              ((keyFor "profile").getD "undefined")
              (.json (loadData noFaults st "profile")))
            ((keyFor "settings").getD "undefined")
            (.json (loadData noFaults st "settings")))
          ((keyFor "tasks").getD "undefined")
          (.json (.arr (getTasksL noFaults st))),
        some ((⟨[], [], []⟩ : IDB).setStore "tasks" [])⟩,
       true) := by
    simp only [importStep, hdt, Json.truthy, if_true, hsv3]
  have hsv4 := saveData_col_ne_nil
    (lsSet (lsSet (lsSet (allKeys.foldl lsRemove ls)
          ((keyFor "profile").getD "undefined")
          (.json (loadData noFaults st "profile")))
        ((keyFor "settings").getD "undefined")
        (.json (loadData noFaults st "settings")))
      ((keyFor "tasks").getD "undefined") (.json (.arr (getTasksL noFaults st))))
    ((⟨[], [], []⟩ : IDB).setStore "tasks" [])
    "objects" (getObjectsL noFaults st) (by decide) ho
  have hstep4 : importStep noFaults "objects" (exportData noFaults st now)
      (⟨lsSet (lsSet (lsSet (allKeys.foldl lsRemove ls)
              ((keyFor "profile").getD "undefined")
              (.json (loadData noFaults st "profile")))
            ((keyFor "settings").getD "undefined")
            (.json (loadData noFaults st "settings")))
          ((keyFor "tasks").getD "undefined")
          (.json (.arr (getTasksL noFaults st))),
        some ((⟨[], [], []⟩ : IDB).setStore "tasks" [])⟩,
       true) =
      (⟨lsSet (lsSet (lsSet (lsSet (allKeys.foldl lsRemove ls)
                ((keyFor "profile").getD "undefined")
                (.json (loadData noFaults st "profile")))
              ((keyFor "settings").getD "undefined")
              (.json (loadData noFaults st "settings")))
            ((keyFor "tasks").getD "undefined")
            (.json (.arr (getTasksL noFaults st))))
          ((keyFor "objects").getD "undefined")
          (.json (.arr (getObjectsL noFaults st))),
        some (((⟨[], [], []⟩ : IDB).setStore "tasks" []).setStore
          "objects" [])⟩,
       true) := by
    simp only [importStep, hdo, Json.truthy, if_true, hsv4]
  have hsv5 := saveData_col_ne_nil
    (lsSet (lsSet (lsSet (lsSet (allKeys.foldl lsRemove ls)
            ((keyFor "profile").getD "undefined")
            (.json (loadData noFaults st "profile")))
          ((keyFor "settings").getD "undefined")
          (.json (loadData noFaults st "settings")))
        ((keyFor "tasks").getD "undefined")
        (.json (.arr (getTasksL noFaults st))))
      ((keyFor "objects").getD "undefined") (.json (.arr (getObjectsL noFaults st))))
    (((⟨[], [], []⟩ : IDB).setStore "tasks" []).setStore "objects" [])
    "requests" (getRequestsL noFaults st) (by decide) hr
  have hstep5 : importStep noFaults "requests" (exportData noFaults st now)
      (⟨lsSet (lsSet (lsSet (lsSet (allKeys.foldl lsRemove ls)
                ((keyFor "profile").getD "undefined")
                (.json (loadData noFaults st "profile")))
              ((keyFor "settings").getD "undefined")
              (.json (loadData noFaults st "settings")))
            ((keyFor "tasks").getD "undefined")
            (.json (.arr (getTasksL noFaults st))))
          ((keyFor "objects").getD "undefined")
          (.json (.arr (getObjectsL noFaults st))),
        some (((⟨[], [], []⟩ : IDB).setStore "tasks" []).setStore
          "objects" [])⟩,
       true) =
      (⟨lsSet (lsSet (lsSet (lsSet (lsSet (allKeys.foldl lsRemove ls)
                  ((keyFor "profile").getD "undefined")
                  (.json (loadData noFaults st "profile")))
                ((keyFor "settings").getD "undefined")
                (.json (loadData noFaults st "settings")))
              ((keyFor "tasks").getD "undefined")
              (.json (.arr (getTasksL noFaults st))))
            ((keyFor "objects").getD "undefined")
            (.json (.arr (getObjectsL noFaults st))))
          ((keyFor "requests").getD "undefined")
          (.json (.arr (getRequestsL noFaults st))),
        some ((((⟨[], [], []⟩ : IDB).setStore "tasks" []).setStore
            "objects" []).setStore "requests" [])⟩,
       true) := by
    simp only [importStep, hdr, Json.truthy, if_true, hsv5]
  have hchain : st2 =
      ⟨lsSet (lsSet (lsSet (lsSet (lsSet (allKeys.foldl lsRemove ls)
                ((keyFor "profile").getD "undefined")
                (.json (loadData noFaults st "profile")))
              ((keyFor "settings").getD "undefined")
              (.json (loadData noFaults st "settings")))
            ((keyFor "tasks").getD "undefined")
            (.json (.arr (getTasksL noFaults st))))
          ((keyFor "objects").getD "undefined")
          (.json (.arr (getObjectsL noFaults st))))
        ((keyFor "requests").getD "undefined")
        (.json (.arr (getRequestsL noFaults st))),
       some ((((⟨[], [], []⟩ : IDB).setStore "tasks" []).setStore
           "objects" []).setStore "requests" [])⟩ := by
    show (importData noFaults ⟨allKeys.foldl lsRemove ls, some ⟨[], [], []⟩⟩
      (.json (exportData noFaults st now))).1 = _
    rw [importData_json_chain, hstep1, hstep2, hstep3, hstep4, hstep5]
  have hgetT : ((((⟨[], [], []⟩ : IDB).setStore "tasks" []).setStore
        "objects" []).setStore "requests" []).getStore "tasks" =
      some ([] : List Json) := by
    rw [getStore_setStore_ne _ "requests" "tasks" _ (by decide) (by decide),
      getStore_setStore_ne _ "objects" "tasks" _ (by decide) (by decide),
      getStore_setStore_self _ "tasks" _ (by decide)]
  have hgetO : ((((⟨[], [], []⟩ : IDB).setStore "tasks" []).setStore
        "objects" []).setStore "requests" []).getStore "objects" =
      some ([] : List Json) := by
    rw [getStore_setStore_ne _ "requests" "objects" _ (by decide) (by decide),
      getStore_setStore_self _ "objects" _ (by decide)]
  have hgetR : ((((⟨[], [], []⟩ : IDB).setStore "tasks" []).setStore
        "objects" []).setStore "requests" []).getStore "requests" =
      some ([] : List Json) := by
    rw [getStore_setStore_self _ "requests" _ (by decide)]
  have hfacts : ∃ lsF dF, st2 = ⟨lsF, some dF⟩
      ∧ lsGet lsF ((keyFor "profile").getD "undefined") =
          some (.json (loadData noFaults st "profile"))
      ∧ lsGet lsF ((keyFor "settings").getD "undefined") =
          some (.json (loadData noFaults st "settings"))
      ∧ lsGet lsF ((keyFor "tasks").getD "undefined") =
          some (.json (.arr (getTasksL noFaults st)))
      ∧ lsGet lsF ((keyFor "objects").getD "undefined") =
          some (.json (.arr (getObjectsL noFaults st)))
      ∧ lsGet lsF ((keyFor "requests").getD "undefined") =
          some (.json (.arr (getRequestsL noFaults st)))
      ∧ dF.getStore "tasks" = some []
      ∧ dF.getStore "objects" = some []
      ∧ dF.getStore "requests" = some [] := by
    refine ⟨_, _, hchain, ?_, ?_, ?_, ?_, ?_, hgetT, hgetO, hgetR⟩
    · rw [lsGet_lsSet_ne _ _ _ _ (by decide), lsGet_lsSet_ne _ _ _ _ (by decide),
        lsGet_lsSet_ne _ _ _ _ (by decide), lsGet_lsSet_ne _ _ _ _ (by decide),
        lsGet_lsSet_self]
    · rw [lsGet_lsSet_ne _ _ _ _ (by decide), lsGet_lsSet_ne _ _ _ _ (by decide),
        lsGet_lsSet_ne _ _ _ _ (by decide), lsGet_lsSet_self]
    · rw [lsGet_lsSet_ne _ _ _ _ (by decide), lsGet_lsSet_ne _ _ _ _ (by decide),
        lsGet_lsSet_self]
    · rw [lsGet_lsSet_ne _ _ _ _ (by decide), lsGet_lsSet_self]
    · rw [lsGet_lsSet_self]
  obtain ⟨lsF, dF, hF, f1, f2, f3, f4, f5, g1, g2, g3⟩ := hfacts
  rw [hF]
  refine ⟨?_, ?_, ?_, ?_, ?_⟩
  · conv_lhs => rw [loadData_db_some_noncol lsF dF "profile" (by decide)]
    rw [f1]
  · conv_lhs => rw [loadData_db_some_noncol lsF dF "settings" (by decide)]
    rw [f2]
  · have hload : loadData noFaults ⟨lsF, some dF⟩ "tasks" =
        .arr (getTasksL noFaults st) := by
      rw [loadData_db_some_col lsF dF "tasks" [] (by decide) g1,
        if_neg (by simp), f3]
    rw [getTasks_eq_arr noFaults ⟨lsF, some dF⟩, getTasks_eq_arr noFaults st,
      getTasksL_of_loadData hload]
  · have hload : loadData noFaults ⟨lsF, some dF⟩ "objects" =
        .arr (getObjectsL noFaults st) := by
      rw [loadData_db_some_col lsF dF "objects" [] (by decide) g2,
        if_neg (by simp), f4]
    rw [getObjects_eq_arr noFaults ⟨lsF, some dF⟩, getObjects_eq_arr noFaults st,
      getObjectsL_of_loadData hload]
  · have hload : loadData noFaults ⟨lsF, some dF⟩ "requests" =
        .arr (getRequestsL noFaults st) := by
      rw [loadData_db_some_col lsF dF "requests" [] (by decide) g3,
        if_neg (by simp), f5]
    rw [getRequests_eq_arr noFaults ⟨lsF, some dF⟩, getRequests_eq_arr noFaults st,
      getRequestsL_of_loadData hload]

/-- C2 counterexample to the claim as stated: with IndexedDB open, a state
whose objects collection is empty (but whose requests collection is not)
breaks the export → clear-all → import round trip.  The exported document
carries `objects: []`; during the import, saving that empty array makes the
`saveData` promise never settle — the refill transaction has already
auto-committed, so no completion event ever fires — and the import stalls
before the `requests` step: the `importData` promise never settles, and the
requests collection, originally one record, afterwards loads as the empty
default. -/
theorem claim_C2_counterexample :
    getRequests noFaults
        ⟨[], some ⟨[Json.obj [("id", Json.str "TSK001")]], [],
                   [Json.obj [("id", Json.str "REQ001")]]⟩⟩
      = Json.arr [Json.obj [("id", Json.str "REQ001")]]
    ∧ (importData noFaults
        (clearAllData noFaults
          ⟨[], some ⟨[Json.obj [("id", Json.str "TSK001")]], [],
                     [Json.obj [("id", Json.str "REQ001")]]⟩⟩).1
        (.json (exportData noFaults
          ⟨[], some ⟨[Json.obj [("id", Json.str "TSK001")]], [],
                     [Json.obj [("id", Json.str "REQ001")]]⟩⟩ "2024-01-01"))).2
      = Settle.hang
    ∧ getRequests noFaults (importData noFaults
        (clearAllData noFaults
          ⟨[], some ⟨[Json.obj [("id", Json.str "TSK001")]], [],
                     [Json.obj [("id", Json.str "REQ001")]]⟩⟩).1
        (.json (exportData noFaults
          ⟨[], some ⟨[Json.obj [("id", Json.str "TSK001")]], [],
                     [Json.obj [("id", Json.str "REQ001")]]⟩⟩ "2024-01-01"))).1
      = Json.arr []
    ∧ Json.arr ([] : List Json)
        ≠ Json.arr [Json.obj [("id", Json.str "REQ001")]] :=
  ⟨rfl, rfl, rfl, fun h => List.noConfusion (Json.arr.inj h)⟩

/-- C2 (amended): exporting the five resources, clearing all data, then
importing the exported document restores the observable value of every
resource (the importer ignores the extra `exportDate`/`version` fields),
provided the stored profile and settings load to truthy values (a falsy
value is skipped by the truthiness check in `importData`) and — when
IndexedDB is open — each of the three collections is non-empty: importing an
empty exported collection with the database open makes that save's promise
never settle, stalling the import, so later resources stay cleared (see the
counterexample).  With IndexedDB unavailable, no collection proviso is
needed. -/
theorem claim_C2_export_clear_import (st : St) (now : String)
    (hp : (loadData noFaults st "profile").truthy = true)
    (hs : (loadData noFaults st "settings").truthy = true)
    (hne : st.db = none ∨
      (getTasksL noFaults st ≠ [] ∧ getObjectsL noFaults st ≠ []
       ∧ getRequestsL noFaults st ≠ [])) :
    loadData noFaults (importData noFaults (clearAllData noFaults st).1
        (.json (exportData noFaults st now))).1 "profile"
      = loadData noFaults st "profile"
    ∧ loadData noFaults (importData noFaults (clearAllData noFaults st).1
        (.json (exportData noFaults st now))).1 "settings"
      = loadData noFaults st "settings"
    ∧ getTasks noFaults (importData noFaults (clearAllData noFaults st).1
        (.json (exportData noFaults st now))).1 = getTasks noFaults st
    ∧ getObjects noFaults (importData noFaults (clearAllData noFaults st).1
        (.json (exportData noFaults st now))).1 = getObjects noFaults st
    ∧ getRequests noFaults (importData noFaults (clearAllData noFaults st).1
        (.json (exportData noFaults st now))).1 = getRequests noFaults st := by
  rcases st with ⟨ls, db⟩
  cases db with
  | none => exact c2_roundtrip_db_none ls now hp hs
  | some d =>
    rcases hne with h | ⟨ht, ho, hr⟩
    · exact absurd h (fun hh => Option.noConfusion hh)
    · exact c2_roundtrip_db_some ls d now hp hs ht ho hr

theorem claim_C2_witness :
    (loadData noFaults ⟨[("sap_migration_profile",
        Stored.json (Json.obj [("nome", Json.str "Ana")]))],
        some ⟨[Json.obj [("id", Json.str "TSK009")]],
              [Json.obj [("id", Json.str "ZEXIT01")]],
              [Json.obj [("id", Json.str "REQ001")]]⟩⟩ "profile").truthy = true
    ∧ getTasksL noFaults ⟨[("sap_migration_profile",
        Stored.json (Json.obj [("nome", Json.str "Ana")]))],
        some ⟨[Json.obj [("id", Json.str "TSK009")]],
              [Json.obj [("id", Json.str "ZEXIT01")]],
              [Json.obj [("id", Json.str "REQ001")]]⟩⟩ ≠ []
    ∧ (loadData noFaults (importData noFaults
        (clearAllData noFaults ⟨[("sap_migration_profile",
          Stored.json (Json.obj [("nome", Json.str "Ana")]))],
          some ⟨[Json.obj [("id", Json.str "TSK009")]],
                [Json.obj [("id", Json.str "ZEXIT01")]],
                [Json.obj [("id", Json.str "REQ001")]]⟩⟩).1
        (.json (exportData noFaults ⟨[("sap_migration_profile",
          Stored.json (Json.obj [("nome", Json.str "Ana")]))],
          some ⟨[Json.obj [("id", Json.str "TSK009")]],
                [Json.obj [("id", Json.str "ZEXIT01")]],
                [Json.obj [("id", Json.str "REQ001")]]⟩⟩ "2024-01-01"))).1
        "profile" =
      loadData noFaults ⟨[("sap_migration_profile",
        Stored.json (Json.obj [("nome", Json.str "Ana")]))],
        some ⟨[Json.obj [("id", Json.str "TSK009")]],
              [Json.obj [("id", Json.str "ZEXIT01")]],
              [Json.obj [("id", Json.str "REQ001")]]⟩⟩ "profile")
    ∧ (getTasks noFaults (importData noFaults
        (clearAllData noFaults ⟨[("sap_migration_profile",
          Stored.json (Json.obj [("nome", Json.str "Ana")]))],
          some ⟨[Json.obj [("id", Json.str "TSK009")]],
                [Json.obj [("id", Json.str "ZEXIT01")]],
                [Json.obj [("id", Json.str "REQ001")]]⟩⟩).1
        (.json (exportData noFaults ⟨[("sap_migration_profile",
          Stored.json (Json.obj [("nome", Json.str "Ana")]))],
          some ⟨[Json.obj [("id", Json.str "TSK009")]],
                [Json.obj [("id", Json.str "ZEXIT01")]],
                [Json.obj [("id", Json.str "REQ001")]]⟩⟩ "2024-01-01"))).1 =
      getTasks noFaults ⟨[("sap_migration_profile",
        Stored.json (Json.obj [("nome", Json.str "Ana")]))],
        some ⟨[Json.obj [("id", Json.str "TSK009")]],
              [Json.obj [("id", Json.str "ZEXIT01")]],
              [Json.obj [("id", Json.str "REQ001")]]⟩⟩) := by
  have h := claim_C2_export_clear_import ⟨[("sap_migration_profile",
      Stored.json (Json.obj [("nome", Json.str "Ana")]))],
      some ⟨[Json.obj [("id", Json.str "TSK009")]],
            [Json.obj [("id", Json.str "ZEXIT01")]],
            [Json.obj [("id", Json.str "REQ001")]]⟩⟩ "2024-01-01"
    rfl rfl
    (Or.inr ⟨fun hh => List.noConfusion hh, fun hh => List.noConfusion hh,
             fun hh => List.noConfusion hh⟩)
  exact ⟨rfl, fun hh => List.noConfusion hh, h.1, h.2.2.1⟩
